import Mathlib

/-!
A shallow embedding, in Lean 4, of the core of the `monkey` interpreter /
compiler / virtual machine (Rust sources under `src/`):

* `src/object.rs`            — the runtime `Object` model and `truthy`;
* `src/eval/mod.rs`          — the tree-walking evaluator (`Environment`);
* `src/intrinsic.rs`         — the intrinsic (built-in) function table;
* `src/compiler/mod.rs`      — the single-pass bytecode compiler;
* `src/code.rs`              — the `Op` instruction set and `Program`;
* `src/vm/mod.rs`, `src/vm/stack.rs`, `src/vm/frame.rs` — the stack VM;
* `src/lexer/mod.rs`         — the lexer.

Rust `i64` arithmetic is modelled with unbounded `Int` (the spec leaves
overflow behaviour unspecified); division by zero, which panics in the
Rust evaluator, is modelled by an explicit `crash` outcome.  Reference-
counted sharing (`Rc`) is modelled by plain values, `HashMap`s by
insertion-ordered association lists (replacing insert), and panics
(`unreachable!`, out-of-bounds indexing, `unwrap` on `None`) by `crash`.
All recursive functions take an explicit fuel argument so that they are
structurally recursive and evaluate by kernel reduction; running out of
fuel is the `fuelOut` outcome, which no Rust execution exhibits.
-/

namespace Monkey

/-- Modelled from the spec: the current snapshot's `token` module is not
under `src/` (only older `src/token.rs` / `src/token/mod.rs` snapshots are;
`lexer/mod.rs`, `eval/mod.rs` and `vm/mod.rs` import `Span`, `Token`,
`TokenKind`, `lookup_keyword` from it).  `Span` is the spec's
`{start: usize, end: usize}` record of offsets into the source; the field
`end` is renamed `stop` because `end` is a Lean keyword.  Offsets are
modelled as character indices (the Rust code uses byte offsets; the two
agree on ASCII sources). -/
structure Span where
  start : Nat
  stop : Nat
deriving DecidableEq, Repr

/-- Modelled from the spec: `join(a,b) = {min(a.start,b.start), max(a.end,b.end)}`. -/
def Span.join (a b : Span) : Span :=
  ⟨min a.start b.start, max a.stop b.stop⟩

/-- Modelled from the spec: `Span::default()` (used for the VM root frame). -/
def Span.default : Span := ⟨0, 0⟩

/-- Modelled from the spec and the uses in `lexer/mod.rs` / `parser/mod.rs` /
`compiler/mod.rs`: the token-kind enumeration of the current snapshot's
`token` module. -/
inductive TokenKind where
  | Ident | Int | String
  | Let | Fn | True | False | If | Else | Return | Null
  | Assign | Plus | Minus | Not | Mul | Div | LT | GT | Eq | Neq
  | Comma | Semicolon | Colon
  | LParen | RParen | LBrace | RBrace | LBracket | RBracket
  | Illegal (c : Char)
deriving DecidableEq, Repr

/-- Modelled from the spec: a token is a kind, a literal slice of the
source, and a span of offsets. -/
structure Token where
  kind : TokenKind
  literal : String
  span : Span
deriving DecidableEq, Repr

/-- Modelled from the spec: the keyword lookup table of the `token` module
(spec §4.1: keywords `let|fn|true|false|if|else|return|null`). -/
def lookup_keyword (s : String) : Option TokenKind :=
  if s = "let" then some .Let
  else if s = "fn" then some .Fn
  else if s = "true" then some .True
  else if s = "false" then some .False
  else if s = "if" then some .If
  else if s = "else" then some .Else
  else if s = "return" then some .Return
  else if s = "null" then some .Null
  else none

/-- Source `ast::PrefixOperator` (`!` and `-`); renamed `UnOp` here. -/
inductive UnOp where
  | Not
  | Neg
deriving DecidableEq, Repr

/-- Source `ast::InfixOperator`; renamed `BinOp` here. -/
inductive BinOp where
  | Add | Sub | Mul | Div | Eq | Neq | LT | GT
deriving DecidableEq, Repr

/-- Source `ast::Identifier<'a> { value: &'a str, token: Token<'a> }`. -/
structure Identifier where
  value : String
  token : Token
deriving Repr

mutual

/-- Modelled from the spec (§3 "Expression") and the pattern matches in
`eval/mod.rs` and `compiler/mod.rs`: the current snapshot's `ast` module is
not under `src/` (the checked-in `src/ast/mod.rs` is an older trait-object
snapshot).  Variant and field names follow the matches in the evaluator and
compiler; `Expression::Prefix` and `Expression::Infix` are renamed `Unary`
and `Binary`, and delimiter-token fields `open`/`close` are `openT`/`closeT`
(Lean keywords). -/
inductive Expression where
  | Identifier (ident : Identifier)
  | Integer (value : Int) (token : Token)
  | Boolean (value : Bool) (token : Token)
  | String (value : String) (token : Token)
  | Null (token : Token)
  | Unary (operator : UnOp) (operand : Expression) (op_token : Token)
  | Binary (left : Expression) (operator : BinOp) (right : Expression)
  | If (condition : Expression) (consequence : BlockStatement)
       (alternative : Option BlockStatement) (if_token : Token)
  | Function (parameters : List Identifier) (body : BlockStatement) (fn_token : Token)
  | Call (function : Expression) (arguments : List Expression) (openT closeT : Token)
  | Array (elements : List Expression) (openT closeT : Token)
  | Index (collection index : Expression) (closeT : Token)
  | Map (elements : List (Expression × Expression)) (openT closeT : Token)

inductive Statement where
  | Expression (expr : Expression)
  | Let (name : Identifier) (value : Expression) (let_token : Token)
  | Return (value : Expression) (return_token : Token)

inductive BlockStatement where
  | mk (openT : Token) (statements : List Statement) (closeT : Token)

end

/-- Source `ast::Program { statements }`. -/
structure Program where
  statements : List Statement

def BlockStatement.openT : BlockStatement → Token
  | .mk t _ _ => t

def BlockStatement.statements : BlockStatement → List Statement
  | .mk _ s _ => s

def BlockStatement.closeT : BlockStatement → Token
  | .mk _ _ t => t

/-- Modelled from the spec (§3: each node carries its source range):
`BlockStatement::span()`, spans taken from the `{` and `}` delimiters. -/
def BlockStatement.span (b : BlockStatement) : Span :=
  b.openT.span.join b.closeT.span

/-- `Identifier::span()` — the span of the identifier token. -/
def Identifier.span (i : Identifier) : Span := i.token.span

/-- Modelled from the spec (§3): `Expression::span()`, the source extent of
the node (`Node::span` of the missing current `ast` module); used by
`eval/mod.rs` for error spans and by `compiler/mod.rs` for op spans. -/
def Expression.span : Expression → Span
  | .Identifier i => i.token.span
  | .Integer _ t => t.span
  | .Boolean _ t => t.span
  | .String _ t => t.span
  | .Null t => t.span
  | .Unary _ operand t => t.span.join operand.span
  | .Binary l _ r => l.span.join r.span
  | .If _ consequence alternative t =>
      (t.span.join consequence.span).join
        ((alternative.map BlockStatement.span).getD consequence.span)
  | .Function _ body t => t.span.join body.span
  | .Call f _ _ closeT => f.span.join closeT.span
  | .Array _ openT closeT => openT.span.join closeT.span
  | .Index c _ closeT => c.span.join closeT.span
  | .Map _ openT closeT => openT.span.join closeT.span

/-- Source `ast::StatementKind` (strum discriminants of `Statement`),
used by `Compiler::compile_statements`. -/
inductive StatementKind where
  | Expression | Let | Return
deriving DecidableEq, Repr

def Statement.kind : Statement → StatementKind
  | .Expression _ => .Expression
  | .Let _ _ _ => .Let
  | .Return _ _ => .Return

/-- Source `code::Op<'a>` (`src/code.rs`).  `Op::Panic` is kept: executing
it panics the host (`vm/mod.rs`), modelled as `crash`. -/
inductive Op where
  | Constant (i : Nat)
  | True (span : Span)
  | False (span : Span)
  | Add | Sub | Mul | Div | Pop | Eq | Neq | GT
  | Neg (span : Span)
  | Not (span : Span)
  | JumpIfNot (i : Nat)
  | Jump (i : Nat)
  | Panic
  | Null (span : Span)
  | Bind (name : String)
  | Get (name : String) (span : Span)
  | Array (size : Nat) (span : Span)
  | Map (size : Nat) (span : Span)
  | Index (span : Span)
  | Call (call_span args_span : Span)
  | ReturnValue
  | Return
deriving DecidableEq, Repr

/-- Source `impl From<InfixOperator> for Op` (`src/code.rs`): note that
BOTH `LT` and `GT` map to `Op::GT` — no `LT` opcode exists. -/
def Op.ofBinOp : BinOp → Op
  | .Add => .Add
  | .Sub => .Sub
  | .Mul => .Mul
  | .Div => .Div
  | .Eq => .Eq
  | .Neq => .Neq
  | .LT => .GT
  | .GT => .GT

/-- Source `impl TryFrom<Op<'_>> for InfixOperator` (`src/code.rs`). -/
def Op.toBinOp : Op → Option BinOp
  | .Add => some .Add
  | .Sub => some .Sub
  | .Mul => some .Mul
  | .Div => some .Div
  | .Eq => some .Eq
  | .Neq => some .Neq
  | .GT => some .GT
  | _ => none

/-- Source `object::CompiledFunction<'a> { ops: Rc<[Op]>, params: Rc<[&str]> }`. -/
structure CompiledFunction where
  ops : List Op
  params : List String
deriving DecidableEq, Repr

mutual

/-- Source `object::Object<'a>` (`src/object.rs`) together with
`eval::Environment<'a>` (`src/eval/mod.rs`), which occur in each other
(`Object::Function` holds the captured environment).  `Object::Map`'s
`HashMap` is modelled as an insertion-ordered association list with
replacing insert; `Object::Function`'s `Rc<Function>` is inlined as
`FunctionObj` (source `object::Function`). -/
inductive Object where
  | Integer (i : Int)
  | Boolean (b : Bool)
  | Return (o : Object)
  | Function (f : FunctionObj)
  | CompiledFunction (f : CompiledFunction)
  | String (s : String)
  | Null
  | Array (elements : List Object)
  | Map (entries : List (Object × Object))

inductive FunctionObj where
  | mk (this : Option Identifier) (parameters : List Identifier)
       (body : BlockStatement) (env : Environment)

inductive Environment where
  | mk (outer : Option Environment) (values : List (String × Object))

end

def FunctionObj.this : FunctionObj → Option Identifier
  | .mk t _ _ _ => t

def FunctionObj.parameters : FunctionObj → List Identifier
  | .mk _ p _ _ => p

def FunctionObj.body : FunctionObj → BlockStatement
  | .mk _ _ b _ => b

def FunctionObj.env : FunctionObj → Environment
  | .mk _ _ _ e => e

def Environment.outer : Environment → Option Environment
  | .mk o _ => o

def Environment.values : Environment → List (String × Object)
  | .mk _ v => v

/-- Source `object::ObjectKind` (strum discriminants of `Object`; the
`Return` discriminant merely *displays* as "Null", it is a distinct
variant). -/
inductive ObjectKind where
  | Integer | Boolean | Return | Function | CompiledFunction
  | String | Null | Array | Map
deriving DecidableEq, Repr

/-- The `Object` → `ObjectKind` discriminant map (strum's derived `From`). -/
def Object.kind : Object → ObjectKind
  | .Integer _ => .Integer
  | .Boolean _ => .Boolean
  | .Return _ => .Return
  | .Function _ => .Function
  | .CompiledFunction _ => .CompiledFunction
  | .String _ => .String
  | .Null => .Null
  | .Array _ => .Array
  | .Map _ => .Map

/-- Source `Object::truthy` (`src/object.rs` lines 145-149):
`!matches!(self, Object::Null | Object::Boolean(false))`. -/
def Object.truthy : Object → Bool
  | .Null => false
  | .Boolean false => false
  | _ => true

end Monkey

namespace Monkey

/-- The outcome of running a piece of Rust code that may (a) succeed,
(b) return an `Err` of type `ε`, or (c) panic the host (`crash`).
`fuelOut` is an artifact of the fuel-based embedding only: no Rust
execution corresponds to it. -/
inductive Res (ε : Type) (α : Type) where
  | ok (a : α)
  | err (e : ε)
  | crash
  | fuelOut
deriving Repr

instance : Monad (Res ε) where
  pure := .ok
  bind r f := match r with
    | .ok a => f a
    | .err e => .err e
    | .crash => .crash
    | .fuelOut => .fuelOut

/-- Outcome of pure Rust code that cannot return `Err` but may panic. -/
abbrev PRes (α : Type) := Res Empty α

mutual

/-- Rust `#[derive(Hash)]` on `Object`: hashing a `Map`, `Function` or
`CompiledFunction` value (at any nesting depth, e.g. inside an `Array`
used as a map key) executes `unreachable!()` — a panic, modelled `crash`.
`Integer`, `Boolean`, `String`, `Null` hash fine; `Return` and `Array`
hash their contents. -/
def hashObject : Nat → Object → PRes Unit
  | 0, _ => .fuelOut
  | fuel+1, o =>
    match o with
    | .Integer _ => .ok ()
    | .Boolean _ => .ok ()
    | .String _ => .ok ()
    | .Null => .ok ()
    | .Return x => hashObject fuel x
    | .Array xs => hashList fuel xs
    | .Map _ => .crash
    | .Function _ => .crash
    | .CompiledFunction _ => .crash

/-- Hashing each element of a list in order (derived `Hash` on `Vec`). -/
def hashList : Nat → List Object → PRes Unit
  | 0, _ => .fuelOut
  | _+1, [] => .ok ()
  | fuel+1, x :: xs =>
    match hashObject fuel x with
    | .ok _ => hashList fuel xs
    | .err e => .err e
    | .crash => .crash
    | .fuelOut => .fuelOut

end

mutual

/-- Rust `#[derive(PartialEq)]` on `Object` (`src/object.rs`): structural
equality, except that comparing two `Function` or two `CompiledFunction`
values executes `unreachable!()` (their hand-written `PartialEq`), a panic
— modelled `crash`.  Values with different discriminants compare `false`
without inspecting payloads. -/
def objEq : Nat → Object → Object → PRes Bool
  | 0, _, _ => .fuelOut
  | fuel+1, a, b =>
    match a, b with
    | .Integer x, .Integer y => .ok (x == y)
    | .Boolean x, .Boolean y => .ok (x == y)
    | .String x, .String y => .ok (x == y)
    | .Null, .Null => .ok true
    | .Return x, .Return y => objEq fuel x y
    | .Function _, .Function _ => .crash
    | .CompiledFunction _, .CompiledFunction _ => .crash
    | .Array xs, .Array ys =>
        if xs.length == ys.length then objListEq fuel xs ys else .ok false
    | .Map xs, .Map ys =>
        if xs.length == ys.length then mapSubsetEq fuel xs ys else .ok false
    | _, _ => .ok false

/-- Slice equality on `Vec<Object>` after the length check: elementwise,
short-circuiting at the first `false`. -/
def objListEq : Nat → List Object → List Object → PRes Bool
  | 0, _, _ => .fuelOut
  | _+1, [], _ => .ok true
  | _+1, _ :: _, [] => .ok true
  | fuel+1, x :: xs, y :: ys =>
    match objEq fuel x y with
    | .ok true => objListEq fuel xs ys
    | .ok false => .ok false
    | .err e => .err e
    | .crash => .crash
    | .fuelOut => .fuelOut

/-- `HashMap` equality after the length check:
`self.iter().all(|(k, v)| other.get(k) == Some(v))`. -/
def mapSubsetEq : Nat → List (Object × Object) → List (Object × Object) → PRes Bool
  | 0, _, _ => .fuelOut
  | _+1, [], _ => .ok true
  | fuel+1, (k, v) :: rest, ys =>
    match mapGet fuel k ys with
    | .ok (some v2) =>
      match objEq fuel v v2 with
      | .ok true => mapSubsetEq fuel rest ys
      | .ok false => .ok false
      | .err e => .err e
      | .crash => .crash
      | .fuelOut => .fuelOut
    | .ok none => .ok false
    | .err e => .err e
    | .crash => .crash
    | .fuelOut => .fuelOut

/-- `HashMap::get` (also the value-returning part of `HashMap::remove`):
hashes the key — panicking on unhashable keys — then compares stored keys
with `PartialEq`. -/
def mapGet : Nat → Object → List (Object × Object) → PRes (Option Object)
  | 0, _, _ => .fuelOut
  | fuel+1, k, entries =>
    match hashObject fuel k with
    | .ok _ => mapFind fuel k entries
    | .err e => .err e
    | .crash => .crash
    | .fuelOut => .fuelOut

/-- Key search within the association-list model of a `HashMap`. -/
def mapFind : Nat → Object → List (Object × Object) → PRes (Option Object)
  | 0, _, _ => .fuelOut
  | _+1, _, [] => .ok none
  | fuel+1, k, (k2, v) :: rest =>
    match objEq fuel k k2 with
    | .ok true => .ok (some v)
    | .ok false => mapFind fuel k rest
    | .err e => .err e
    | .crash => .crash
    | .fuelOut => .fuelOut

/-- `HashMap::insert`: hashes the key (panicking on unhashable keys), then
replaces the value of an equal existing key or appends a new entry. -/
def mapInsert : Nat → Object → Object → List (Object × Object) → PRes (List (Object × Object))
  | 0, _, _, _ => .fuelOut
  | fuel+1, k, v, entries =>
    match hashObject fuel k with
    | .ok _ => mapInsertLoop fuel k v entries
    | .err e => .err e
    | .crash => .crash
    | .fuelOut => .fuelOut

/-- Replace-or-append step of `HashMap::insert` (the original key object is
kept when an equal key is already present, as in `HashMap`). -/
def mapInsertLoop : Nat → Object → Object → List (Object × Object) → PRes (List (Object × Object))
  | 0, _, _, _ => .fuelOut
  | _+1, k, v, [] => .ok [(k, v)]
  | fuel+1, k, v, (k2, v2) :: rest =>
    match objEq fuel k k2 with
    | .ok true => .ok ((k2, v) :: rest)
    | .ok false =>
      match mapInsertLoop fuel k v rest with
      | .ok m => .ok ((k2, v2) :: m)
      | .err e => .err e
      | .crash => .crash
      | .fuelOut => .fuelOut
    | .err e => .err e
    | .crash => .crash
    | .fuelOut => .fuelOut

end

end Monkey

namespace Monkey

/-- Source `eval::ErrorKind<'a>` (`src/eval/mod.rs`).  Two variants are
declared elsewhere in the crate but referenced by code under `src/`:
`DivisionByZero` is constructed by `vm/mod.rs` (its `Div` arm) and
`NotAnArray` by `src/intrinsic.rs`; both appear in the spec's error
taxonomy (§7). -/
inductive ErrorKind where
  | InvalidOperands (operator : BinOp) (left right : ObjectKind)
  | InvalidOperand (operator : UnOp) (operand : ObjectKind)
  | UndefinedVariable (name : String)
  | NotAFunction
  | WrongNumberOfArguments (expected got : Nat)
  | NotACollection
  | NotAnIndex
  | OutOfBounds (i : Int) (len : Nat)
  | InvalidKey (kind : ObjectKind)
  | TooLongForLen
  | BadTypeForLen (kind : ObjectKind)
  | DivisionByZero
  | NotAnArray
deriving DecidableEq, Repr

/-- Source `eval::Error<'a> { span, kind }`. -/
structure EvalError where
  span : Span
  kind : ErrorKind
deriving DecidableEq, Repr

/-- Source `vm::Error<'a>`: `Underflow` or a wrapped evaluation error. -/
inductive VmError where
  | Underflow
  | Eval (e : EvalError)
deriving DecidableEq, Repr

/-- `eval`'s result type: `Result<T, Vec<Error>>`, plus the host-panic and
fuel outcomes of the embedding. -/
abbrev EvalRes (α : Type) := Res (List EvalError) α

/-- `vm`'s result type: `Result<T, Vec<vm::Error>>`, plus panic/fuel. -/
abbrev VmRes (α : Type) := Res (List VmError) α

/-- `HashMap<&str, _>` lookup, on the association-list model. -/
def lookupAssoc {α : Type} : List (String × α) → String → Option α
  | [], _ => none
  | (k, v) :: rest, name => if k = name then some v else lookupAssoc rest name

/-- `HashMap<&str, _>::insert`: replace the value of an existing key or
append a new entry. -/
def insertAssoc {α : Type} : List (String × α) → String → α → List (String × α)
  | [], name, v => [(name, v)]
  | (k, w) :: rest, name, v =>
    if k = name then (k, v) :: rest else (k, w) :: insertAssoc rest name v

/-- `Environment::default()` — no outer scope, no bindings. -/
def Environment.default : Environment := .mk none []

/-- Binding insertion into the current environment's `values` map
(`self.values.insert(str, value)` in `eval_statement`'s `Let` arm). -/
def Environment.insertValue (env : Environment) (name : String) (v : Object) : Environment :=
  .mk env.outer (insertAssoc env.values name v)

/-- Source `Environment::find_variable` (`src/eval/mod.rs` lines 365-370):
look in this environment's `values`, else recurse into `outer`. -/
def Environment.find_variable : Nat → Environment → String → PRes (Option Object)
  | 0, _, _ => .fuelOut
  | fuel+1, env, name =>
    match lookupAssoc env.values name with
    | some v => .ok (some v)
    | none =>
      match env.outer with
      | some outer => Environment.find_variable fuel outer name
      | none => .ok none

/-- `i64::MAX`, used by the `len` intrinsic's overflow check. -/
def i64Max : Int := 9223372036854775807

/-- Source `intrinsic::print` (`src/intrinsic.rs`): writes to stdout (out
of scope here) and returns `Null`. -/
def intrinsicPrint (_args : List Object) (_args_span : Span) : EvalRes Object :=
  .ok .Null

/-- Source `intrinsic::len` (`src/intrinsic.rs`).  String length is the
Rust byte length, modelled as character count (equal on ASCII). -/
def intrinsicLen (args : List Object) (args_span : Span) : EvalRes Object :=
  match args with
  | [arg] =>
    let arg_span : Span := ⟨args_span.start + 1, args_span.stop - 1⟩
    match arg with
    | .Array a =>
        if (a.length : Int) > i64Max then .err [⟨arg_span, .TooLongForLen⟩]
        else .ok (.Integer a.length)
    | .Map m =>
        if (m.length : Int) > i64Max then .err [⟨arg_span, .TooLongForLen⟩]
        else .ok (.Integer m.length)
    | .String s =>
        if (s.length : Int) > i64Max then .err [⟨arg_span, .TooLongForLen⟩]
        else .ok (.Integer s.length)
    | arg => .err [⟨arg_span, .BadTypeForLen arg.kind⟩]
  | _ => .err [⟨args_span, .WrongNumberOfArguments 1 args.length⟩]

/-- Source `intrinsic::first`: array-only; empty array gives `Null`. -/
def intrinsicFirst (args : List Object) (args_span : Span) : EvalRes Object :=
  match args with
  | [arg] =>
    match arg with
    | .Array a => .ok (a.head?.getD .Null)
    | _ => .err [⟨args_span, .NotAnArray⟩]
  | _ => .err [⟨args_span, .WrongNumberOfArguments 1 args.length⟩]

/-- Source `intrinsic::last`: array-only; empty array gives `Null`. -/
def intrinsicLast (args : List Object) (args_span : Span) : EvalRes Object :=
  match args with
  | [arg] =>
    match arg with
    | .Array a => .ok (a.getLast?.getD .Null)
    | _ => .err [⟨args_span, .NotAnArray⟩]
  | _ => .err [⟨args_span, .WrongNumberOfArguments 1 args.length⟩]

/-- Source `intrinsic::rest`: a fresh array of all but the first element. -/
def intrinsicRest (args : List Object) (args_span : Span) : EvalRes Object :=
  match args with
  | [arg] =>
    match arg with
    | .Array a => .ok (.Array (a.drop 1))
    | _ => .err [⟨args_span, .NotAnArray⟩]
  | _ => .err [⟨args_span, .WrongNumberOfArguments 1 args.length⟩]

/-- Source `intrinsic::push` (`src/intrinsic.rs` lines 137-158): clones the
argument array, appends a clone of the value, and returns the new array;
the arguments are not mutated (the model is pure, and the end-to-end
theorems show the binding is unchanged afterwards). -/
def intrinsicPush (args : List Object) (args_span : Span) : EvalRes Object :=
  match args with
  | [arg, value] =>
    match arg with
    | .Array a => .ok (.Array (a ++ [value]))
    | _ => .err [⟨args_span, .NotAnArray⟩]
  | _ => .err [⟨args_span, .WrongNumberOfArguments 2 args.length⟩]

/-- Source `intrinsic::lookup_intrinsic` (`src/intrinsic.rs` lines 8-20),
the full six-entry table cited by the spec (§4.4).  (The copy under
`src/eval/intrinsic.rs` is an earlier two-entry subset — `print` and `len`
only — of the same table; the crate snapshot under `src/` is internally
inconsistent about which file backs `eval`'s `mod intrinsic`, and the
spec's table matches this one.) -/
def lookup_intrinsic (name : String) : Option (List Object → Span → EvalRes Object) :=
  if name = "print" then some intrinsicPrint
  else if name = "len" then some intrinsicLen
  else if name = "first" then some intrinsicFirst
  else if name = "last" then some intrinsicLast
  else if name = "rest" then some intrinsicRest
  else if name = "push" then some intrinsicPush
  else none

end Monkey

namespace Monkey

/-- The `(operator, left, right)` dispatch of `eval_expression`'s `Infix`
arm (`src/eval/mod.rs` lines 148-194).  NOTE (claim C4): the `Div` arm is
`Ok(Object::Integer(left / right))` with NO zero check — Rust `i64`
division panics when the divisor is 0, modelled `crash`.  `Int.tdiv` is
Rust's truncating division.  `Eq`/`Neq` apply to any operands except when
either side is a `Function` (tree-walker closures); everything else falls
through to `InvalidOperands`. -/
def eval_infix_dispatch : Nat → Span → BinOp → Object → Object → EvalRes Object
  | 0, _, _, _, _ => .fuelOut
  | fuel+1, span, operator, l, r =>
    match operator, l, r with
    | .Add, .Integer a, .Integer b => .ok (.Integer (a + b))
    | .Add, .String a, .String b => .ok (.String (a ++ b))
    | .Sub, .Integer a, .Integer b => .ok (.Integer (a - b))
    | .Mul, .Integer a, .Integer b => .ok (.Integer (a * b))
    | .Div, .Integer a, .Integer b =>
        if b = 0 then .crash else .ok (.Integer (Int.tdiv a b))
    | .LT, .Integer a, .Integer b => .ok (.Boolean (decide (a < b)))
    | .GT, .Integer a, .Integer b => .ok (.Boolean (decide (a > b)))
    | operator, l, r =>
      match operator with
      | .Eq =>
        if l.kind = .Function ∨ r.kind = .Function then
          .err [⟨span, .InvalidOperands operator l.kind r.kind⟩]
        else
          match objEq fuel l r with
          | .ok b => .ok (.Boolean b)
          | .err e => nomatch e
          | .crash => .crash
          | .fuelOut => .fuelOut
      | .Neq =>
        if l.kind = .Function ∨ r.kind = .Function then
          .err [⟨span, .InvalidOperands operator l.kind r.kind⟩]
        else
          match objEq fuel l r with
          | .ok b => .ok (.Boolean !b)
          | .err e => nomatch e
          | .crash => .crash
          | .fuelOut => .fuelOut
      | _ => .err [⟨span, .InvalidOperands operator l.kind r.kind⟩]

mutual

/-- Source `Environment::eval_program` (`src/eval/mod.rs` lines 75-77):
evaluate the program's statements against `&mut self`; the updated
environment is returned explicitly here (expressions never mutate the
ambient environment; only top-level `let` bindings do). -/
def eval_program : Nat → Environment → Program → EvalRes (Environment × Object)
  | 0, _, _ => .fuelOut
  | fuel+1, env, p => eval_statements fuel env p.statements

/-- Source `Environment::eval_statements` (lines 79-100): empty list gives
`Null`; otherwise statements run in order, a `Return`-wrapped result is
unwrapped and returned at once (note: even when earlier statements
accumulated errors), errors of other statements accumulate, and the value
of the last statement is returned when no errors accumulated. -/
def eval_statements : Nat → Environment → List Statement → EvalRes (Environment × Object)
  | 0, _, _ => .fuelOut
  | fuel+1, env, statements =>
    if statements.isEmpty then .ok (env, .Null)
    else eval_statements_loop fuel env statements [] .Null

/-- The `for statement in statements` loop body of `eval_statements`,
carrying the accumulated `errors` and the `last` successful value. -/
def eval_statements_loop : Nat → Environment → List Statement → List EvalError → Object →
    EvalRes (Environment × Object)
  | 0, _, _, _, _ => .fuelOut
  | _+1, env, [], errors, last =>
    if errors.isEmpty then .ok (env, last) else .err errors
  | fuel+1, env, s :: rest, errors, last =>
    match eval_statement fuel env s with
    | .ok (env', .Return v) => .ok (env', v)
    | .ok (env', out) => eval_statements_loop fuel env' rest errors out
    | .err es => eval_statements_loop fuel env rest (errors ++ es) last
    | .crash => .crash
    | .fuelOut => .fuelOut

/-- Source `Environment::eval_statement` (lines 102-115). -/
def eval_statement : Nat → Environment → Statement → EvalRes (Environment × Object)
  | 0, _, _ => .fuelOut
  | fuel+1, env, .Expression expr => do
    let v ← eval_expression fuel env expr none
    .ok (env, v)
  | fuel+1, env, .Return value _ => do
    let v ← eval_expression fuel env value none
    .ok (env, .Return v)
  | fuel+1, env, .Let name value _ => do
    let v ← eval_expression fuel env value (some name)
    .ok (env.insertValue name.value v, .Null)

/-- Source `Environment::eval_expression` (lines 117-354).  `ident` is the
`Option<Identifier>` self-name hint passed from `let` statements. -/
def eval_expression : Nat → Environment → Expression → Option Identifier → EvalRes Object
  | 0, _, _, _ => .fuelOut
  | fuel+1, env, expr, ident =>
    let span := expr.span
    match expr with
    | .Integer value _ => .ok (.Integer value)
    | .Boolean value _ => .ok (.Boolean value)
    | .Unary .Not operand _ => do
        let v ← eval_expression fuel env operand none
        .ok (.Boolean (!v.truthy))
    | .Unary .Neg operand _ => do
        let v ← eval_expression fuel env operand none
        match v with
        | .Integer i => .ok (.Integer (-i))
        | v => .err [⟨span, .InvalidOperand .Neg v.kind⟩]
    | .Binary left operator right => do
        let l ← eval_expression fuel env left none
        let r ← eval_expression fuel env right none
        eval_infix_dispatch fuel span operator l r
    | .If condition consequence alternative _ => do
        let c ← eval_expression fuel env condition none
        if c.truthy then eval_block_statement fuel env consequence
        else
          match alternative with
          | some alt => eval_block_statement fuel env alt
          | none => .ok .Null
    | .Identifier id =>
        match Environment.find_variable fuel env id.value with
        | .ok (some v) => .ok v
        | .ok none => .err [⟨id.token.span, .UndefinedVariable id.value⟩]
        | .err e => nomatch e
        | .crash => .crash
        | .fuelOut => .fuelOut
    | .Function parameters body _ =>
        .ok (.Function (.mk ident parameters body (.mk (some env) [])))
    | .Call function arguments openT closeT =>
        let args_span : Span := ⟨openT.span.start, closeT.span.stop⟩
        match (match function with
               | .Identifier id => lookup_intrinsic id.value
               | _ => none) with
        | some intr => do
            let args ← eval_expr_list fuel env arguments
            intr args args_span
        | none => do
            let fv ← eval_expression fuel env function none
            match fv with
            | .Function f =>
                if arguments.length ≠ f.parameters.length then
                  .err [⟨args_span,
                         .WrongNumberOfArguments f.parameters.length arguments.length⟩]
                else do
                  let call_env ← eval_call_bind fuel env arguments f.parameters f.env
                  let call_env :=
                    match f.this with
                    | some this => call_env.insertValue this.value (.Function f)
                    | none => call_env
                  eval_block_statement fuel call_env f.body
            | _ => .err [⟨span, .NotAFunction⟩]
    | .Null _ => .ok .Null
    | .String value _ => .ok (.String value)
    | .Array elements _ _ => do
        let vs ← eval_expr_list fuel env elements
        .ok (.Array vs)
    | .Index collection index _ => do
        let cv ← eval_expression fuel env collection none
        match cv with
        | .Array arr =>
            let idx_span := index.span
            do
              let iv ← eval_expression fuel env index none
              match iv with
              | .Integer i =>
                  if i < 0 ∨ (arr.length : Int) ≤ i then
                    .err [⟨idx_span, .OutOfBounds i arr.length⟩]
                  else
                    .ok ((arr.get? i.toNat).getD .Null)
              | _ => .err [⟨idx_span, .NotAnIndex⟩]
        | .Map m => do
            let iv ← eval_expression fuel env index none
            if iv.kind = .Function ∨ iv.kind = .Map then
              .err [⟨span, .InvalidKey iv.kind⟩]
            else
              match mapGet fuel iv m with
              | .ok (some v) => .ok v
              | .ok none => .ok .Null
              | .err e => nomatch e
              | .crash => .crash
              | .fuelOut => .fuelOut
        | _ => .err [⟨span, .NotACollection⟩]
    | .Map elements _ _ => eval_map_entries fuel env elements []

/-- The element loop of argument lists and array literals
(`collect::<Result<Vec<_>>>`: stops at the first error). -/
def eval_expr_list : Nat → Environment → List Expression → EvalRes (List Object)
  | 0, _, _ => .fuelOut
  | _+1, _, [] => .ok []
  | fuel+1, env, e :: rest => do
      let v ← eval_expression fuel env e none
      let vs ← eval_expr_list fuel env rest
      .ok (v :: vs)

/-- The `Call` arm's argument-binding loop: evaluate each argument in the
caller's environment and bind it to the positionally matching parameter in
the call environment (the `zip` stops at the shorter list; arity was
already checked equal). -/
def eval_call_bind : Nat → Environment → List Expression → List Identifier → Environment →
    EvalRes Environment
  | 0, _, _, _, _ => .fuelOut
  | _+1, _, [], _, call_env => .ok call_env
  | _+1, _, _ :: _, [], call_env => .ok call_env
  | fuel+1, env, a :: args, p :: params, call_env => do
      let v ← eval_expression fuel env a none
      eval_call_bind fuel env args params (call_env.insertValue p.value v)

/-- The entry loop of `eval_expression`'s `Map` arm (lines 336-352): the
key is evaluated and checked (rejecting `Function` and `Map` keys — arrays
are NOT rejected), then the value, then `HashMap::insert`. -/
def eval_map_entries : Nat → Environment → List (Expression × Expression) →
    List (Object × Object) → EvalRes Object
  | 0, _, _, _ => .fuelOut
  | _+1, _, [], acc => .ok (.Map acc)
  | fuel+1, env, (key, value) :: rest, acc =>
      let key_span := key.span
      match eval_expression fuel env key none with
      | .ok kv =>
        if kv.kind = .Function ∨ kv.kind = .Map then
          .err [⟨key_span, .InvalidKey kv.kind⟩]
        else
          (match eval_expression fuel env value none with
           | .ok vv =>
             match mapInsert fuel kv vv acc with
             | .ok m => eval_map_entries fuel env rest m
             | .err e => nomatch e
             | .crash => .crash
             | .fuelOut => .fuelOut
           | .err e => .err e
           | .crash => .crash
           | .fuelOut => .fuelOut)
      | .err e => .err e
      | .crash => .crash
      | .fuelOut => .fuelOut

/-- Source `Environment::eval_block_statement` (lines 356-363): blocks run
their statements in a fresh child environment. -/
def eval_block_statement : Nat → Environment → BlockStatement → EvalRes Object
  | 0, _, _ => .fuelOut
  | fuel+1, env, block =>
    match eval_statements fuel (.mk (some env) []) block.statements with
    | .ok (_, v) => .ok v
    | .err e => .err e
    | .crash => .crash
    | .fuelOut => .fuelOut

end

end Monkey

namespace Monkey

/-- Source `code::SpannedObject<'a> { object, span }`. -/
structure SpannedObject where
  object : Object
  span : Span

/-- Source `code::Program<'a> { ops, constants }` (the bytecode program). -/
structure BytecodeProgram where
  ops : List Op
  constants : List SpannedObject

/-- Source `compiler::Compiler<'a>`: a constant pool and a stack of scopes,
each a growing `ops` vector.  The current (innermost) scope's ops are the
`ops` field; `outer` holds the enclosing scopes, innermost first (the
source keeps a `Vec<Scope>` whose LAST element is current). -/
structure Compiler where
  constants : List SpannedObject
  ops : List Op
  outer : List (List Op)

/-- Append an op to the current scope (`self.current_scope().ops.push(op)`). -/
def Compiler.pushOp (c : Compiler) (op : Op) : Compiler :=
  { c with ops := c.ops ++ [op] }

/-- Source `Compiler::add_constant` (lines 37-44): append to the constant
pool and emit `Op::Constant` of its index. -/
def Compiler.add_constant (c : Compiler) (object : Object) (span : Span) : Compiler :=
  let constants := c.constants ++ [⟨object, span⟩]
  { c with constants := constants, ops := c.ops ++ [.Constant (constants.length - 1)] }

/-- The post-loop tail of `Compiler::compile_statements` (lines 66-73): if
the last statement was an expression statement, remove its trailing `Pop`;
then emit `Op::Return` when the list was empty or ended in `let`, else
`Op::ReturnValue`. -/
def Compiler.statements_finish (c : Compiler) (last_kind : Option StatementKind) : Compiler :=
  let c := if last_kind = some .Expression then { c with ops := c.ops.dropLast } else c
  if last_kind = none ∨ last_kind = some .Let then c.pushOp .Return
  else c.pushOp .ReturnValue

mutual

/-- Source `Compiler::compile_statements` (lines 57-74): compile the
statements in order, stopping after a `Return` statement, then apply
`statements_finish`.  Fuel exhaustion gives `none` (no Rust counterpart). -/
def compile_statements : Nat → Compiler → List Statement → Option Compiler
  | 0, _, _ => none
  | fuel+1, c, statements => compile_statements_loop fuel c statements none

/-- The `for statement in statements` loop of `compile_statements`,
tracking `last_kind`. -/
def compile_statements_loop : Nat → Compiler → List Statement → Option StatementKind →
    Option Compiler
  | 0, _, _, _ => none
  | _+1, c, [], last_kind => some (c.statements_finish last_kind)
  | fuel+1, c, s :: rest, _ => do
    let kind := s.kind
    let c ← compile_statement fuel c s
    if kind = .Return then some (c.statements_finish (some .Return))
    else compile_statements_loop fuel c rest (some kind)

/-- Source `Compiler::compile_statement` (lines 76-90). -/
def compile_statement : Nat → Compiler → Statement → Option Compiler
  | 0, _, _ => none
  | fuel+1, c, .Expression expr => do
    let c ← compile_expression fuel c expr
    some (c.pushOp .Pop)
  | fuel+1, c, .Let name value _ => do
    let c ← compile_expression fuel c value
    some (c.pushOp (.Bind name.value))
  | fuel+1, c, .Return value _ => compile_expression fuel c value

/-- Source `Compiler::compile_expression` (lines 92-240).  Note the
`Infix` arm: for `LT` the RIGHT operand is compiled first, then the left,
and `Op::GT` is emitted (`Op::ofBinOp` maps both `LT` and `GT` to `GT`). -/
def compile_expression : Nat → Compiler → Expression → Option Compiler
  | 0, _, _ => none
  | fuel+1, c, expr =>
    let span := expr.span
    match expr with
    | .Binary left operator right => do
      let c ←
        if operator = .LT then do
          let c ← compile_expression fuel c right
          compile_expression fuel c left
        else do
          let c ← compile_expression fuel c left
          compile_expression fuel c right
      some (c.pushOp (Op.ofBinOp operator))
    | .Integer value token => some (c.add_constant (.Integer value) token.span)
    | .Boolean value token =>
      some (c.pushOp (if value then .True token.span else .False token.span))
    | .Unary operator operand _ => do
      let c ← compile_expression fuel c operand
      some (c.pushOp (match operator with
                      | .Not => .Not span
                      | .Neg => .Neg span))
    | .If condition consequence alternative _ => do
      let c ← compile_expression fuel c condition
      let c := c.pushOp .Panic
      let jin_pos := c.ops.length - 1
      let c ← compile_statements fuel c consequence.statements
      match alternative with
      | some alternative => do
        let c := c.pushOp .Panic
        let jump_pos := c.ops.length - 1
        let c := { c with ops := c.ops.set jin_pos (.JumpIfNot c.ops.length) }
        let c ← compile_statements fuel c alternative.statements
        some { c with ops := c.ops.set jump_pos (.Jump c.ops.length) }
      | none =>
        some { c with ops := c.ops.set jin_pos (.JumpIfNot c.ops.length) }
    | .Null token => some (c.pushOp (.Null token.span))
    | .Identifier name => some (c.pushOp (.Get name.value name.span))
    | .String value token => some (c.add_constant (.String value) token.span)
    | .Array elements openT closeT => do
      let size := elements.length
      let c ← compile_expr_list fuel c elements.reverse
      some (c.pushOp (.Array size (openT.span.join closeT.span)))
    | .Map elements openT closeT => do
      let size := elements.length
      let c ← compile_map_elements fuel c elements.reverse
      some (c.pushOp (.Map size (openT.span.join closeT.span)))
    | .Index collection index closeT => do
      let span := collection.span.join closeT.span
      let c ← compile_expression fuel c collection
      let c ← compile_expression fuel c index
      some (c.pushOp (.Index span))
    | .Function parameters body fn_token => do
      let c := { c with outer := c.ops :: c.outer, ops := [] }
      let span := fn_token.span.join body.span
      let c ← compile_statements fuel c body.statements
      let fn_ops := c.ops
      let c := { c with ops := c.outer.headD [], outer := c.outer.tail }
      some (c.add_constant
              (.CompiledFunction ⟨fn_ops, parameters.map (·.value)⟩) span)
    | .Call function arguments openT closeT => do
      let span := function.span.join closeT.span
      let c ← compile_expr_list fuel c arguments
      let c ← compile_expression fuel c function
      some (c.pushOp (.Call span (openT.span.join closeT.span)))

/-- Compiling a list of expressions in the given order (used for call
arguments, and for array elements after reversal). -/
def compile_expr_list : Nat → Compiler → List Expression → Option Compiler
  | 0, _, _ => none
  | _+1, c, [] => some c
  | fuel+1, c, e :: rest => do
    let c ← compile_expression fuel c e
    compile_expr_list fuel c rest

/-- The `Map` literal loop: for each `(key, value)` — already reversed by
the caller — compile the VALUE, then the KEY. -/
def compile_map_elements : Nat → Compiler → List (Expression × Expression) → Option Compiler
  | 0, _, _ => none
  | _+1, c, [] => some c
  | fuel+1, c, (key, value) :: rest => do
    let c ← compile_expression fuel c value
    let c ← compile_expression fuel c key
    compile_map_elements fuel c rest

end

/-- Source `Compiler::compile` (lines 46-55): push a fresh scope, compile
the program's statements, pop the one trailing `Return`/`ReturnValue` op
emitted by `compile_statements`, and package the bytecode program. -/
def Compiler.compile (fuel : Nat) (program : Program) : Option BytecodeProgram := do
  let c : Compiler := { constants := [], ops := [], outer := [] }
  let c ← compile_statements fuel c program.statements
  some { ops := c.ops.dropLast, constants := c.constants }

end Monkey

namespace Monkey

/-- Source `vm/stack.rs`: `Stack<T, const SIZE: usize = 2048>` — the VM's
value stack has fixed capacity 2048 (the const-generic default). -/
def STACK_SIZE : Nat := 2048

/-- Source `Stack::push` (`src/vm/stack.rs` lines 31-34):
`self.data[self.top] = MaybeUninit::new(value); self.top += 1;` — when the
stack already holds `SIZE` values the indexing `self.data[self.top]` is out
of bounds and PANICS the host (there is no capacity check), modelled
`crash`.  The stack is modelled as a list with its top at the head. -/
def stack_push (stack : List SpannedObject) (value : SpannedObject) :
    PRes (List SpannedObject) :=
  if stack.length < STACK_SIZE then .ok (value :: stack) else .crash

/-- Source `Stack::pop` (lines 36-44): `None` when empty. -/
def stack_pop (stack : List SpannedObject) : Option (SpannedObject × List SpannedObject) :=
  match stack with
  | [] => none
  | v :: rest => some (v, rest)

/-- Modelled from the spec (the `Stack::drain` method called by
`vm/mod.rs` is not in the checked-in `src/vm/stack.rs` snapshot): remove
up to `n` values from the top, returned top-first (spec §3 `Array{size}`:
"pop size values (top-first)"); `VM::run`'s `Call` arm checks afterwards
whether fewer than `n` were available. -/
def stack_drain (stack : List SpannedObject) (n : Nat) :
    List SpannedObject × List SpannedObject :=
  (stack.take n, stack.drop n)

/-- Source `vm::frame::Frame<'a>` (`src/vm/frame.rs`). -/
structure Frame where
  function : CompiledFunction
  ip : Nat
  call_span : Span
  locals : List (String × SpannedObject)

/-- Source `Frame::new`. -/
def Frame.new (function : CompiledFunction) (call_span : Span) : Frame :=
  { function := function, ip := 0, call_span := call_span, locals := [] }

/-- Source `Frame::ops`. -/
def Frame.ops (f : Frame) : List Op := f.function.ops

/-- Source `vm::VM<'input>`: the value stack, the frame stack (current
frame at the head here; the source keeps a `Vec` whose last element is
current), and the shared constant pool. -/
structure VM where
  stack : List SpannedObject
  frames : List Frame
  constants : List SpannedObject

/-- Source `VM::new` (lines 50-62): one root frame holding the program's
ops with no parameters, default span. -/
def VM.new (program : BytecodeProgram) : VM :=
  { stack := []
    frames := [Frame.new ⟨program.ops, []⟩ Span.default]
    constants := program.constants }

/-- Source `VM::pop` (lines 361-363): `Stack::pop`, with `None` reported
as a `Stack underflow` error. -/
def VM.pop (vm : VM) : VmRes (SpannedObject × VM) :=
  match stack_pop vm.stack with
  | none => .err [.Underflow]
  | some (v, rest) => .ok (v, { vm with stack := rest })

/-- `self.stack.push(...)` inside `VM::run` (may panic on overflow, see
`stack_push`). -/
def VM.push (vm : VM) (v : SpannedObject) : VmRes VM :=
  match stack_push vm.stack v with
  | .ok st => .ok { vm with stack := st }
  | .err e => nomatch e
  | .crash => .crash
  | .fuelOut => .fuelOut

/-- `self.current_frame_mut().ip = i` (the jump arms). -/
def VM.setIp (vm : VM) (i : Nat) : VM :=
  match vm.frames with
  | [] => vm
  | f :: rest => { vm with frames := { f with ip := i } :: rest }

/-- `self.current_frame_mut().ip += 1` at the bottom of `VM::run`'s loop:
`current_frame_mut` calls `.last_mut().unwrap()`, which PANICS when the
frame stack is empty (this is reachable: `Op::ReturnValue` at the top
level pops the root frame). -/
def VM.incIp (vm : VM) : PRes VM :=
  match vm.frames with
  | [] => .crash
  | f :: rest => .ok { vm with frames := { f with ip := f.ip + 1 } :: rest }

/-- Source `VM::bind` (lines 72-74): insert into the current frame's
locals. -/
def VM.bind (vm : VM) (name : String) (value : SpannedObject) : VM :=
  match vm.frames with
  | [] => vm
  | f :: rest =>
    { vm with frames := { f with locals := insertAssoc f.locals name value } :: rest }

/-- Source `VM::execute_binary_op` (lines 278-359): pop right, pop left;
when the left value's span STARTS AFTER the right value's span ends the
compiler must have swapped the operands of a `<`, so the operator is
rewritten to `LT`; then dispatch.  The `Div` arm checks for a zero divisor
and errors with `DivisionByZero`; `Eq`/`Neq` reject `CompiledFunction`
operands (via fall-through to `InvalidOperands`); the `GT | LT` arm pushes
`left > right` (for a rewritten `LT` the popped `left` is the source-right
operand, so this is the source-level `<`). -/
def execute_binary_op : Nat → VM → BinOp → VmRes VM
  | 0, _, _ => .fuelOut
  | fuel+1, vm, operator =>
    match vm.stack with
    | [] => .err [.Underflow]
    | [_] => .err [.Underflow]
    | right :: left :: rest =>
      let span := left.span.join right.span
      let operator := if right.span.stop < left.span.start then BinOp.LT else operator
      let pushv : Object → VmRes VM := fun o =>
        match stack_push rest ⟨o, span⟩ with
        | .ok st => .ok { vm with stack := st }
        | .err e => nomatch e
        | .crash => .crash
        | .fuelOut => .fuelOut
      match operator, left.object, right.object with
      | .Add, .Integer a, .Integer b => pushv (.Integer (a + b))
      | .Add, .String a, .String b => pushv (.String (a ++ b))
      | .Sub, .Integer a, .Integer b => pushv (.Integer (a - b))
      | .Mul, .Integer a, .Integer b => pushv (.Integer (a * b))
      | .Div, .Integer a, .Integer b =>
        if b = 0 then .err [.Eval ⟨span, .DivisionByZero⟩]
        else pushv (.Integer (Int.tdiv a b))
      | operator, l, r =>
        match operator with
        | .Eq =>
          if l.kind = .CompiledFunction ∨ r.kind = .CompiledFunction then
            .err [.Eval ⟨span, .InvalidOperands operator l.kind r.kind⟩]
          else
            match objEq fuel l r with
            | .ok b => pushv (.Boolean b)
            | .err e => nomatch e
            | .crash => .crash
            | .fuelOut => .fuelOut
        | .Neq =>
          if l.kind = .CompiledFunction ∨ r.kind = .CompiledFunction then
            .err [.Eval ⟨span, .InvalidOperands operator l.kind r.kind⟩]
          else
            match objEq fuel l r with
            | .ok b => pushv (.Boolean !b)
            | .err e => nomatch e
            | .crash => .crash
            | .fuelOut => .fuelOut
        | .GT | .LT =>
          match l, r with
          | .Integer a, .Integer b => pushv (.Boolean (decide (a > b)))
          | _, _ => .err [.Eval ⟨span, .InvalidOperands operator l.kind r.kind⟩]
        | _ => .err [.Eval ⟨span, .InvalidOperands operator l.kind r.kind⟩]

/-- `(key, value)` pairing of drained map entries
(`.tuples::<(_, _)>()` — an odd leftover element is dropped). -/
def chunkPairs : List Object → List (Object × Object)
  | a :: b :: rest => (a, b) :: chunkPairs rest
  | _ => []

/-- `collect::<HashMap<_, _>>()` over drained `(key, value)` pairs:
repeated `HashMap::insert` (later pairs overwrite earlier equal keys;
hashing a `Map`/function key panics). -/
def mapCollect : Nat → List (Object × Object) → List (Object × Object) →
    PRes (List (Object × Object))
  | 0, _, _ => .fuelOut
  | _+1, [], acc => .ok acc
  | fuel+1, (k, v) :: rest, acc =>
    match mapInsert fuel k v acc with
    | .ok m => mapCollect fuel rest m
    | .err e => nomatch e
    | .crash => .crash
    | .fuelOut => .fuelOut

end Monkey

namespace Monkey

/-- Source `VM::run` (`src/vm/mod.rs` lines 76-276).  The loop fetches the
current frame's op at its `ip`; when the ops are exhausted it halts with
the top of stack (or `Null` on an empty stack).  Each arm executes as in
the source; afterwards `ip` is incremented via `VM.incIp` — which PANICS
when the frame stack has become empty — except for `Op::Call`, whose arm
`continue`s without incrementing.  Fetching a constant out of range
panics (`self.constants[value]` indexing), as does `Op::Panic`. -/
def VM.run : Nat → VM → VmRes Object
  | 0, _ => .fuelOut
  | fuel+1, vm =>
    match vm.frames with
    | [] => .crash
    | frame :: restFrames =>
      match frame.ops.get? frame.ip with
      | none => .ok (((vm.stack.head?).map (·.object)).getD .Null)
      | some op =>
        let step : VmRes VM → VmRes Object := fun r =>
          match r with
          | .ok vm' =>
            match vm'.incIp with
            | .ok vm'' => VM.run fuel vm''
            | .err e => nomatch e
            | .crash => .crash
            | .fuelOut => .fuelOut
          | .err e => .err e
          | .crash => .crash
          | .fuelOut => .fuelOut
        match op with
        | .Constant i =>
          match vm.constants.get? i with
          | none => .crash
          | some c => step (vm.push c)
        | .Pop => step (.ok { vm with stack := vm.stack.tail })
        | .Add => step (execute_binary_op fuel vm .Add)
        | .Sub => step (execute_binary_op fuel vm .Sub)
        | .Mul => step (execute_binary_op fuel vm .Mul)
        | .Div => step (execute_binary_op fuel vm .Div)
        | .Eq => step (execute_binary_op fuel vm .Eq)
        | .Neq => step (execute_binary_op fuel vm .Neq)
        | .GT => step (execute_binary_op fuel vm .GT)
        | .True span => step (vm.push ⟨.Boolean true, span⟩)
        | .False span => step (vm.push ⟨.Boolean false, span⟩)
        | .Neg span =>
          match vm.pop with
          | .ok (value, vm1) =>
            match value.object with
            | .Integer i => step (vm1.push ⟨.Integer (-i), span⟩)
            | o => .err [.Eval ⟨value.span, .InvalidOperand .Neg o.kind⟩]
          | .err e => .err e
          | .crash => .crash
          | .fuelOut => .fuelOut
        | .Not span =>
          match vm.pop with
          | .ok (value, vm1) => step (vm1.push ⟨.Boolean (!value.object.truthy), span⟩)
          | .err e => .err e
          | .crash => .crash
          | .fuelOut => .fuelOut
        | .JumpIfNot index =>
          match vm.pop with
          | .ok (value, vm1) =>
            if !value.object.truthy then step (.ok (vm1.setIp (index - 1)))
            else step (.ok vm1)
          | .err e => .err e
          | .crash => .crash
          | .fuelOut => .fuelOut
        | .Jump index => step (.ok (vm.setIp (index - 1)))
        | .Panic => .crash
        | .Null span => step (vm.push ⟨.Null, span⟩)
        | .Bind name =>
          match vm.pop with
          | .ok (value, vm1) => step (.ok (vm1.bind name value))
          | .err e => .err e
          | .crash => .crash
          | .fuelOut => .fuelOut
        | .Get name span =>
          match lookupAssoc frame.locals name with
          | none => .err [.Eval ⟨span, .UndefinedVariable name⟩]
          | some value => step (vm.push ⟨value.object, span⟩)
        | .Array size span =>
          let (vals, rest) := stack_drain vm.stack size
          step (VM.push { vm with stack := rest } ⟨.Array (vals.map (·.object)), span⟩)
        | .Map size span =>
          let (vals, rest) := stack_drain vm.stack (size * 2)
          match mapCollect fuel (chunkPairs (vals.map (·.object))) [] with
          | .ok m =>
            if m.length ≠ size then .err [.Underflow]
            else step (VM.push { vm with stack := rest } ⟨.Map m, span⟩)
          | .err e => nomatch e
          | .crash => .crash
          | .fuelOut => .fuelOut
        | .Index span =>
          match vm.pop with
          | .ok (index, vm1) =>
            match vm1.pop with
            | .ok (collection, vm2) =>
              match collection.object with
              | .Array arr =>
                (match index.object with
                 | .Integer i =>
                   if i < 0 ∨ (arr.length : Int) ≤ i then
                     .err [.Eval ⟨index.span, .OutOfBounds i arr.length⟩]
                   else
                     step (vm2.push ⟨(arr.get? i.toNat).getD .Null, span⟩)
                 | _ => .err [.Eval ⟨index.span, .NotAnIndex⟩])
              | .Map m =>
                if index.object.kind = .CompiledFunction ∨ index.object.kind = .Map then
                  .err [.Eval ⟨index.span, .InvalidKey index.object.kind⟩]
                else
                  (match mapGet fuel index.object m with
                   | .ok v => step (vm2.push ⟨v.getD .Null, span⟩)
                   | .err e => nomatch e
                   | .crash => .crash
                   | .fuelOut => .fuelOut)
              | _ => .err [.Eval ⟨collection.span, .NotACollection⟩]
            | .err e => .err e
            | .crash => .crash
            | .fuelOut => .fuelOut
          | .err e => .err e
          | .crash => .crash
          | .fuelOut => .fuelOut
        | .Call call_span args_span =>
          match vm.pop with
          | .ok (function, vm1) =>
            match function.object with
            | .CompiledFunction f =>
              let params := f.params
              let (args, rest) := stack_drain vm1.stack params.length
              if args.length ≠ params.length then
                .err [.Eval ⟨args_span, .WrongNumberOfArguments params.length args.length⟩]
              else
                let locals := (params.reverse.zip args).foldl
                  (fun loc pv => insertAssoc loc pv.1 pv.2) []
                VM.run fuel
                  { vm1 with
                    stack := rest
                    frames := { Frame.new f call_span with locals := locals } :: vm1.frames }
            | _ => .err [.Eval ⟨function.span, .NotAFunction⟩]
          | .err e => .err e
          | .crash => .crash
          | .fuelOut => .fuelOut
        | .ReturnValue =>
          match vm.pop with
          | .ok (value, vm1) =>
            step (VM.push { vm1 with frames := restFrames } ⟨value.object, frame.call_span⟩)
          | .err e => .err e
          | .crash => .crash
          | .fuelOut => .fuelOut
        | .Return =>
          step (VM.push { vm with frames := restFrames } ⟨.Null, frame.call_span⟩)

end Monkey

namespace Monkey

/-- `Environment::default().eval_program(p)` (the `--backend=otf` path of
`main.rs`), keeping the resulting object. -/
def run_otf (fuel : Nat) (p : Program) : EvalRes Object :=
  match eval_program fuel Environment.default p with
  | .ok (_, v) => .ok v
  | .err e => .err e
  | .crash => .crash
  | .fuelOut => .fuelOut

/-- `VM::new(Compiler::default().compile(p)).run()` (the `--backend=vm`
path of `main.rs`). -/
def run_vm (fuel : Nat) (p : Program) : VmRes Object :=
  match Compiler.compile fuel p with
  | some bp => VM.run fuel (VM.new bp)
  | none => .fuelOut

/-- Token shorthand for the concrete programs below. -/
def tk (kind : TokenKind) (literal : String) (a b : Nat) : Token :=
  ⟨kind, literal, ⟨a, b⟩⟩

/-- Integer-literal expression shorthand. -/
def intLit (v : Int) (lit : String) (a b : Nat) : Expression :=
  .Integer v (tk .Int lit a b)

/-- Identifier-expression shorthand. -/
def idExpr (name : String) (a b : Nat) : Expression :=
  .Identifier ⟨name, tk .Ident name a b⟩

/-- Identifier shorthand. -/
def mkIdent (name : String) (a b : Nat) : Identifier :=
  ⟨name, tk .Ident name a b⟩

/-- The parse of `let f = fn() { if (true) { 1 }; 2 }; f();` (spans are
the source character offsets). -/
def prog_if_fn : Program := ⟨[
  .Let (mkIdent "f" 4 5)
    (.Function []
      (.mk (tk .LBrace "\x7b" 13 14)
        [ .Expression (.If (.Boolean true (tk .True "true" 19 23))
            (.mk (tk .LBrace "\x7b" 25 26)
              [.Expression (intLit 1 "1" 27 28)]
              (tk .RBrace "\x7d" 29 30))
            none (tk .If "if" 15 17)),
          .Expression (intLit 2 "2" 32 33) ]
        (tk .RBrace "\x7d" 34 35))
      (tk .Fn "fn" 8 10))
    (tk .Let "let" 0 3),
  .Expression (.Call (idExpr "f" 37 38) []
    (tk .LParen "(" 38 39) (tk .RParen ")" 39 40))
]⟩

/-- The parse of
`let fib = fn(n) { if (n < 2) { n } else { fib(n-1) + fib(n-2) } }; fib(10);`. -/
def prog_fib : Program := ⟨[
  .Let (mkIdent "fib" 4 7)
    (.Function [mkIdent "n" 13 14]
      (.mk (tk .LBrace "\x7b" 16 17)
        [ .Expression (.If
            (.Binary (idExpr "n" 22 23) .LT (intLit 2 "2" 26 27))
            (.mk (tk .LBrace "\x7b" 29 30)
              [.Expression (idExpr "n" 31 32)]
              (tk .RBrace "\x7d" 33 34))
            (some (.mk (tk .LBrace "\x7b" 40 41)
              [.Expression (.Binary
                (.Call (idExpr "fib" 42 45)
                  [.Binary (idExpr "n" 46 47) .Sub (intLit 1 "1" 48 49)]
                  (tk .LParen "(" 45 46) (tk .RParen ")" 49 50))
                .Add
                (.Call (idExpr "fib" 53 56)
                  [.Binary (idExpr "n" 57 58) .Sub (intLit 2 "2" 59 60)]
                  (tk .LParen "(" 56 57) (tk .RParen ")" 60 61)))]
              (tk .RBrace "\x7d" 62 63)))
            (tk .If "if" 18 20)) ]
        (tk .RBrace "\x7d" 64 65))
      (tk .Fn "fn" 10 12))
    (tk .Let "let" 0 3),
  .Expression (.Call (idExpr "fib" 67 70) [intLit 10 "10" 71 73]
    (tk .LParen "(" 70 71) (tk .RParen ")" 73 74))
]⟩

/-- The parse of `1 / 0;`. -/
def prog_div_zero : Program :=
  ⟨[.Expression (.Binary (intLit 1 "1" 0 1) .Div (intLit 0 "0" 4 5))]⟩

/-- The parse of `bar < foo;` (both variables undefined: which one the
error names reveals which operand was evaluated first). -/
def prog_lt_vars : Program :=
  ⟨[.Expression (.Binary (idExpr "bar" 0 3) .LT (idExpr "foo" 6 9))]⟩

/-- The parse of `2 < 3;`. -/
def prog_two_lt_three : Program :=
  ⟨[.Expression (.Binary (intLit 2 "2" 0 1) .LT (intLit 3 "3" 4 5))]⟩

/-- The parse of `3 < 2;`. -/
def prog_three_lt_two : Program :=
  ⟨[.Expression (.Binary (intLit 3 "3" 0 1) .LT (intLit 2 "2" 4 5))]⟩

/-- The parse of `{[1]: 2}[[1]];` — a map literal with an ARRAY key,
indexed by an equal array key. -/
def prog_map_array_key : Program := ⟨[.Expression
  (.Index
    (.Map [(.Array [intLit 1 "1" 2 3] (tk .LBracket "[" 1 2) (tk .RBracket "]" 3 4),
            intLit 2 "2" 6 7)]
      (tk .LBrace "\x7b" 0 1) (tk .RBrace "\x7d" 7 8))
    (.Array [intLit 1 "1" 10 11] (tk .LBracket "[" 9 10) (tk .RBracket "]" 11 12))
    (tk .RBracket "]" 12 13))]⟩

/-- The parse of `let a = [1,2,3]; push(a, 4); a;` (spec §8, scenario 4). -/
def prog_push : Program := ⟨[
  .Let (mkIdent "a" 4 5)
    (.Array [intLit 1 "1" 9 10, intLit 2 "2" 11 12, intLit 3 "3" 13 14]
      (tk .LBracket "[" 8 9) (tk .RBracket "]" 14 15))
    (tk .Let "let" 0 3),
  .Expression (.Call (idExpr "push" 17 21) [idExpr "a" 22 23, intLit 4 "4" 25 26]
    (tk .LParen "(" 21 22) (tk .RParen ")" 26 27)),
  .Expression (idExpr "a" 29 30)
]⟩

end Monkey

namespace Monkey

/-- Source `lexer::Lexer<'a>` (`src/lexer/mod.rs` lines 6-11): the input
(as a character list), the current position, the next position, and the
current character.  Positions are character indices (the Rust code uses
byte offsets via `len_utf8`; the two agree on ASCII sources, and each
character counts 1 here). -/
structure Lexer where
  input : List Char
  pos : Nat
  next_pos : Nat
  char : Option Char
deriving Repr

/-- Source `Lexer::new` (lines 14-23). -/
def Lexer.new (input : List Char) : Lexer :=
  let char := input.head?
  let next_pos := if char.isSome then 1 else 0
  ⟨input, 0, next_pos, char⟩

/-- Source `Lexer::read_char` (lines 25-32): move to `next_pos`, load the
character there, and advance `next_pos` only when a character was found. -/
def Lexer.read_char (l : Lexer) : Lexer :=
  let char := l.input.get? l.next_pos
  match char with
  | none => { l with char := none, pos := l.next_pos }
  | some _ => { l with char := char, pos := l.next_pos, next_pos := l.next_pos + 1 }

/-- Source `Lexer::peek_char` (lines 34-36). -/
def Lexer.peek_char (l : Lexer) : Option Char := l.input.get? l.next_pos

/-- `&input[a..b]` as a string (Rust panics when `a > b`; the model
totalizes this to the empty slice — reachable only for the lone-quote
input `"` whose literal slice is `input[1..0]`). -/
def strSlice (input : List Char) (a b : Nat) : String :=
  String.mk ((input.drop a).take (b - a))

/-- The `while self.peek_char().is_some_and(p) { self.read_char() }` loops
of `<Lexer as Iterator>::next` (identifier runs, digit runs, string
bodies). -/
def Lexer.scan_while : Nat → Lexer → (Char → Bool) → PRes Lexer
  | 0, _, _ => .fuelOut
  | fuel+1, l, p =>
    match l.peek_char with
    | some c => if p c then Lexer.scan_while fuel l.read_char p else .ok l
    | none => .ok l

/-- The whitespace-skipping loop at the top of `next` (lines 43-45);
stops on a non-whitespace character or at end of input. -/
def Lexer.skip_ws : Nat → Lexer → PRes Lexer
  | 0, _ => .fuelOut
  | fuel+1, l =>
    match l.char with
    | some c => if c.isWhitespace then Lexer.skip_ws fuel l.read_char else .ok l
    | none => .ok l

/-- The `match self.char?` body of `next` (lines 49-104), producing the
token kind and the lexer state after consuming the token's tail (Lean's
ASCII `Char.isAlpha`/`isAlphanum`/`isWhitespace` stand in for Rust's
Unicode-aware predicates; they agree on ASCII). -/
def Lexer.lex_kind : Nat → Lexer → Char → Nat → PRes (TokenKind × Lexer)
  | 0, _, _, _ => .fuelOut
  | fuel+1, l, c, start =>
    if c = '=' then
      if l.peek_char = some '=' then .ok (.Eq, l.read_char)
      else .ok (.Assign, l)
    else if c = '+' then .ok (.Plus, l)
    else if c = '-' then .ok (.Minus, l)
    else if c = '!' then
      if l.peek_char = some '=' then .ok (.Neq, l.read_char)
      else .ok (.Not, l)
    else if c = '/' then .ok (.Div, l)
    else if c = '*' then .ok (.Mul, l)
    else if c = '<' then .ok (.LT, l)
    else if c = '>' then .ok (.GT, l)
    else if c = ';' then .ok (.Semicolon, l)
    else if c = '(' then .ok (.LParen, l)
    else if c = ')' then .ok (.RParen, l)
    else if c = ',' then .ok (.Comma, l)
    else if c = '{' then .ok (.LBrace, l)
    else if c = '}' then .ok (.RBrace, l)
    else if c = '"' then
      match Lexer.scan_while fuel l (fun ch => ch ≠ '"') with
      | .ok l' => .ok (.String, l'.read_char)
      | .err e => nomatch e
      | .crash => .crash
      | .fuelOut => .fuelOut
    else if c = '[' then .ok (.LBracket, l)
    else if c = ']' then .ok (.RBracket, l)
    else if c = ':' then .ok (.Colon, l)
    else if c.isAlpha || c = '_' then
      match Lexer.scan_while fuel l (fun ch => ch.isAlphanum || ch = '_') with
      | .ok l' =>
        .ok ((lookup_keyword (strSlice l'.input start l'.next_pos)).getD .Ident, l')
      | .err e => nomatch e
      | .crash => .crash
      | .fuelOut => .fuelOut
    else if c.isDigit then
      match Lexer.scan_while fuel l (fun ch => ch.isDigit) with
      | .ok l' => .ok (.Int, l')
      | .err e => nomatch e
      | .crash => .crash
      | .fuelOut => .fuelOut
    else .ok (.Illegal c, l)

/-- Source `<Lexer<'a> as Iterator>::next` (lines 42-128): skip
whitespace (returning `none` at end of input), compute the kind, perform
the final `read_char`, and build the token: `end` is `pos` (minus one for
strings), `literal_start` is `start` (plus one for strings), the literal
is the slice `input[literal_start..end]`, and the span is `{start, pos}`. -/
def Lexer.lexNext : Nat → Lexer → PRes (Option (Token × Lexer))
  | 0, _ => .fuelOut
  | fuel+1, l0 =>
    match Lexer.skip_ws fuel l0 with
    | .ok l =>
      match l.char with
      | none => .ok none
      | some c =>
        let start := l.pos
        match Lexer.lex_kind fuel l c start with
        | .ok (kind, l1) =>
          let l2 := l1.read_char
          let stop' := if kind = .String then l2.pos - 1 else l2.pos
          let lit_start := if kind = .String then start + 1 else start
          .ok (some ({ kind := kind
                       literal := strSlice l2.input lit_start stop'
                       span := ⟨start, l2.pos⟩ }, l2))
        | .err e => nomatch e
        | .crash => .crash
        | .fuelOut => .fuelOut
    | .err e => nomatch e
    | .crash => .crash
    | .fuelOut => .fuelOut

/-- Driving the lexer iterator to completion, collecting all tokens. -/
def Lexer.lexAll : Nat → Lexer → PRes (List Token)
  | 0, _ => .fuelOut
  | fuel+1, l =>
    match Lexer.lexNext fuel l with
    | .ok none => .ok []
    | .ok (some (t, l')) =>
      match Lexer.lexAll fuel l' with
      | .ok ts => .ok (t :: ts)
      | .err e => nomatch e
      | .crash => .crash
      | .fuelOut => .fuelOut
    | .err e => nomatch e
    | .crash => .crash
    | .fuelOut => .fuelOut

/-- The token sequence the lexer produces on source `s`. -/
def lex (fuel : Nat) (s : List Char) : PRes (List Token) :=
  Lexer.lexAll fuel (Lexer.new s)

/-- The lexer-state invariant tying a `Lexer` to its source `s`: the input
is `s`, `char` is the character at `pos`, `next_pos` is one past `pos`
while a character remains (`read_char` stops advancing it at the end), and
`pos` never passes the end. -/
def Lexer.WF (l : Lexer) (s : List Char) : Prop :=
  l.input = s ∧ l.char = s.get? l.pos ∧
  l.next_pos = (if l.pos < s.length then l.pos + 1 else l.pos) ∧
  l.pos ≤ s.length

/-- The per-token contract proved for every token the lexer emits (claim
C6 as amended): the span lies inside the source, and the literal is the
span's source slice — for string tokens, the slice minus its first and
last characters (the surrounding quotes whenever the string is
terminated). -/
def TokenSliceContract (s : List Char) (t : Token) : Prop :=
  t.span.start ≤ t.span.stop ∧ t.span.stop ≤ s.length ∧
  (t.kind = .String → t.literal = strSlice s (t.span.start + 1) (t.span.stop - 1)) ∧
  (t.kind ≠ .String → t.literal = strSlice s t.span.start t.span.stop)

/-- A bytecode program that pushes 2049 constants and then builds one
array: `Compiler::compile` applied to an array literal `[1,1,...,1]` with
2049 elements produces exactly this shape (claim C9: the 2049th push
overflows the 2048-capacity stack). -/
def overflow_program : BytecodeProgram :=
  { ops := List.replicate 2049 (.Constant 0) ++ [.Array 2049 ⟨0, 1⟩]
    constants := [⟨.Integer 1, ⟨0, 1⟩⟩] }

/-- The VM state reached after `k` of the 2049 constant pushes of
`overflow_program` (used to drive `VM::run` to the overflowing push). -/
def overflow_state (k : Nat) : VM :=
  { stack := List.replicate k ⟨.Integer 1, ⟨0, 1⟩⟩
    frames := [⟨⟨overflow_program.ops, []⟩, k, Span.default, []⟩]
    constants := overflow_program.constants }

end Monkey

namespace Monkey

/-! Supporting lemmas: the `Res` monad's computation rules, well-formedness
of lexer states, and the stepping of `overflow_program` through `VM::run`. -/

@[simp] theorem Res.bind_ok (a : α) (f : α → Res ε β) :
    (Res.ok a) >>= f = f a := rfl

@[simp] theorem Res.bind_err (e : ε) (f : α → Res ε β) :
    (Res.err e : Res ε α) >>= f = .err e := rfl

@[simp] theorem Res.bind_crash (f : α → Res ε β) :
    (Res.crash : Res ε α) >>= f = .crash := rfl

@[simp] theorem Res.bind_fuelOut (f : α → Res ε β) :
    (Res.fuelOut : Res ε α) >>= f = .fuelOut := rfl

@[simp] theorem Res.pure_eq_ok (a : α) : (pure a : Res ε α) = .ok a := rfl

/-- `Lexer::new` establishes the lexer-state invariant. -/
theorem lexer_new_wf (s : List Char) : (Lexer.new s).WF s := by
  refine ⟨rfl, (List.get?_zero s).symm, ?_, Nat.zero_le _⟩
  cases s with
  | nil => rfl
  | cons a t => simp [Lexer.new, List.get?_zero]

/-- `Lexer::read_char` preserves the invariant and never moves `pos`
backwards. -/
theorem read_char_wf {l : Lexer} {s : List Char} (h : l.WF s) :
    (l.read_char).WF s ∧ l.pos ≤ l.read_char.pos := by
  obtain ⟨hi, hc, hn, hp⟩ := h
  subst hi
  have hmono : l.pos ≤ l.next_pos := by rw [hn]; split <;> omega
  have hnp : l.next_pos ≤ l.input.length := by rw [hn]; split <;> omega
  rcases Nat.lt_or_ge l.next_pos l.input.length with hlt | hge
  · have hgE : l.input[l.next_pos]? = some l.input[l.next_pos] :=
      List.getElem?_eq_getElem hlt
    have hg : l.input.get? l.next_pos = some l.input[l.next_pos] := by
      rw [List.get?_eq_getElem?]; exact hgE
    have hrc : l.read_char =
        { input := l.input, pos := l.next_pos, next_pos := l.next_pos + 1,
          char := some l.input[l.next_pos] } := by
      simp [Lexer.read_char, List.get?_eq_getElem?, hgE]
    rw [hrc]
    exact ⟨⟨rfl, hg.symm, (if_pos hlt).symm, Nat.le_of_lt hlt⟩, hmono⟩
  · have hg : l.input.get? l.next_pos = none := List.get?_eq_none.mpr hge
    have hgE : l.input[l.next_pos]? = none := by
      rw [← List.get?_eq_getElem?]; exact hg
    have hrc : l.read_char =
        { input := l.input, pos := l.next_pos, next_pos := l.next_pos,
          char := none } := by
      simp [Lexer.read_char, List.get?_eq_getElem?, hgE]
    rw [hrc]
    exact ⟨⟨rfl, hg.symm, (if_neg (Nat.not_lt.mpr hge)).symm, hnp⟩, hmono⟩

/-- The scanning loops preserve the invariant and move forward. -/
theorem scan_while_wf {s : List Char} :
    ∀ (fuel : Nat) (l : Lexer) (p : Char → Bool) (l' : Lexer),
      l.WF s → Lexer.scan_while fuel l p = .ok l' → l'.WF s ∧ l.pos ≤ l'.pos := by
  intro fuel
  induction fuel with
  | zero => intro l p l' _ h; exact absurd h (by simp [Lexer.scan_while])
  | succ n ih =>
    intro l p l' hw h
    rw [Lexer.scan_while] at h
    cases hp : l.peek_char with
    | none => simp only [hp] at h; cases h; exact ⟨hw, Nat.le_refl _⟩
    | some c =>
      simp only [hp] at h
      by_cases hpc : p c
      · rw [if_pos hpc] at h
        obtain ⟨hw1, hm1⟩ := read_char_wf hw
        obtain ⟨hw2, hm2⟩ := ih l.read_char p l' hw1 h
        exact ⟨hw2, Nat.le_trans hm1 hm2⟩
      · rw [if_neg hpc] at h; cases h; exact ⟨hw, Nat.le_refl _⟩

/-- Whitespace skipping preserves the invariant. -/
theorem skip_ws_wf {s : List Char} :
    ∀ (fuel : Nat) (l : Lexer) (l' : Lexer),
      l.WF s → Lexer.skip_ws fuel l = .ok l' → l'.WF s := by
  intro fuel
  induction fuel with
  | zero => intro l l' _ h; exact absurd h (by simp [Lexer.skip_ws])
  | succ n ih =>
    intro l l' hw h
    rw [Lexer.skip_ws] at h
    cases hc : l.char with
    | none => simp only [hc] at h; cases h; exact hw
    | some c =>
      simp only [hc] at h
      by_cases hws : c.isWhitespace
      · rw [if_pos hws] at h
        exact ih l.read_char l' (read_char_wf hw).1 h
      · rw [if_neg hws] at h; cases h; exact hw

end Monkey


namespace Monkey

set_option maxHeartbeats 2000000 in
/-- Each `lex_kind` branch either stays put, consumes one extra character,
or runs a scanning loop: the invariant is preserved and `pos` moves forward. -/
theorem lex_kind_wf {s : List Char} :
    ∀ (fuel : Nat) (l : Lexer) (c : Char) (start : Nat) (kind : TokenKind) (l' : Lexer),
      l.WF s → Lexer.lex_kind fuel l c start = .ok (kind, l') →
      l'.WF s ∧ l.pos ≤ l'.pos := by
  intro fuel
  cases fuel with
  | zero => intro l c start kind l' _ h; exact nomatch h
  | succ n =>
    intro l c start kind l' hw h
    rw [Lexer.lex_kind] at h
    by_cases h1 : c = '='
    · rw [if_pos h1] at h
      by_cases hp1 : l.peek_char = some '='
      · rw [if_pos hp1] at h; cases h; exact ⟨(read_char_wf hw).1, (read_char_wf hw).2⟩
      · rw [if_neg hp1] at h; cases h; exact ⟨hw, Nat.le_refl _⟩
    rw [if_neg h1] at h
    by_cases h2 : c = '+'
    · rw [if_pos h2] at h; cases h; exact ⟨hw, Nat.le_refl _⟩
    rw [if_neg h2] at h
    by_cases h3 : c = '-'
    · rw [if_pos h3] at h; cases h; exact ⟨hw, Nat.le_refl _⟩
    rw [if_neg h3] at h
    by_cases h4 : c = '!'
    · rw [if_pos h4] at h
      by_cases hp4 : l.peek_char = some '='
      · rw [if_pos hp4] at h; cases h; exact ⟨(read_char_wf hw).1, (read_char_wf hw).2⟩
      · rw [if_neg hp4] at h; cases h; exact ⟨hw, Nat.le_refl _⟩
    rw [if_neg h4] at h
    by_cases h5 : c = '/'
    · rw [if_pos h5] at h; cases h; exact ⟨hw, Nat.le_refl _⟩
    rw [if_neg h5] at h
    by_cases h6 : c = '*'
    · rw [if_pos h6] at h; cases h; exact ⟨hw, Nat.le_refl _⟩
    rw [if_neg h6] at h
    by_cases h7 : c = '<'
    · rw [if_pos h7] at h; cases h; exact ⟨hw, Nat.le_refl _⟩
    rw [if_neg h7] at h
    by_cases h8 : c = '>'
    · rw [if_pos h8] at h; cases h; exact ⟨hw, Nat.le_refl _⟩
    rw [if_neg h8] at h
    by_cases h9 : c = ';'
    · rw [if_pos h9] at h; cases h; exact ⟨hw, Nat.le_refl _⟩
    rw [if_neg h9] at h
    by_cases h10 : c = '('
    · rw [if_pos h10] at h; cases h; exact ⟨hw, Nat.le_refl _⟩
    rw [if_neg h10] at h
    by_cases h11 : c = ')'
    · rw [if_pos h11] at h; cases h; exact ⟨hw, Nat.le_refl _⟩
    rw [if_neg h11] at h
    by_cases h12 : c = ','
    · rw [if_pos h12] at h; cases h; exact ⟨hw, Nat.le_refl _⟩
    rw [if_neg h12] at h
    by_cases h13 : c = '{'
    · rw [if_pos h13] at h; cases h; exact ⟨hw, Nat.le_refl _⟩
    rw [if_neg h13] at h
    by_cases h14 : c = '}'
    · rw [if_pos h14] at h; cases h; exact ⟨hw, Nat.le_refl _⟩
    rw [if_neg h14] at h
    by_cases h15 : c = '\"'
    · rw [if_pos h15] at h
      cases hq : Lexer.scan_while n l (fun ch => ch ≠ '"') with
      | ok l1 =>
        simp only [hq] at h
        cases h
        obtain ⟨hw1, hm1⟩ := scan_while_wf n l _ l1 hw hq
        obtain ⟨hw2, hm2⟩ := read_char_wf hw1
        exact ⟨hw2, Nat.le_trans hm1 hm2⟩
      | err e => simp only [hq] at h; exact nomatch h
      | crash => simp only [hq] at h; exact nomatch h
      | fuelOut => simp only [hq] at h; exact nomatch h
    rw [if_neg h15] at h
    by_cases h16 : c = '['
    · rw [if_pos h16] at h; cases h; exact ⟨hw, Nat.le_refl _⟩
    rw [if_neg h16] at h
    by_cases h17 : c = ']'
    · rw [if_pos h17] at h; cases h; exact ⟨hw, Nat.le_refl _⟩
    rw [if_neg h17] at h
    by_cases h18 : c = ':'
    · rw [if_pos h18] at h; cases h; exact ⟨hw, Nat.le_refl _⟩
    rw [if_neg h18] at h
    by_cases h19 : (c.isAlpha || c = '_') = true
    · rw [if_pos h19] at h
      cases hq : Lexer.scan_while n l (fun ch => ch.isAlphanum || ch = '_') with
      | ok l1 => simp only [hq] at h; cases h; exact scan_while_wf n l _ _ hw hq
      | err e => simp only [hq] at h; exact nomatch h
      | crash => simp only [hq] at h; exact nomatch h
      | fuelOut => simp only [hq] at h; exact nomatch h
    rw [if_neg h19] at h
    by_cases h20 : c.isDigit = true
    · rw [if_pos h20] at h
      cases hq : Lexer.scan_while n l (fun ch => ch.isDigit) with
      | ok l1 => simp only [hq] at h; cases h; exact scan_while_wf n l _ _ hw hq
      | err e => simp only [hq] at h; exact nomatch h
      | crash => simp only [hq] at h; exact nomatch h
      | fuelOut => simp only [hq] at h; exact nomatch h
    rw [if_neg h20] at h
    cases h; exact ⟨hw, Nat.le_refl _⟩

/-- Every token `Lexer::next` emits satisfies the slice contract, and the
returned lexer state is again well-formed. -/
theorem lexNext_contract {s : List Char} :
    ∀ (fuel : Nat) (l0 : Lexer) (t : Token) (l2 : Lexer),
      l0.WF s → Lexer.lexNext fuel l0 = .ok (some (t, l2)) →
      l2.WF s ∧ TokenSliceContract s t := by
  intro fuel
  cases fuel with
  | zero => intro l0 t l2 _ h; exact nomatch h
  | succ n =>
    intro l0 t l2 hw h
    rw [Lexer.lexNext] at h
    cases hws : Lexer.skip_ws n l0 with
    | ok l =>
      simp only [hws] at h
      have hwl : l.WF s := skip_ws_wf n l0 l hw hws
      cases hc : l.char with
      | none => simp only [hc] at h; exact nomatch h
      | some c =>
        simp only [hc] at h
        cases hk : Lexer.lex_kind n l c l.pos with
        | ok kl =>
          obtain ⟨kind, l1⟩ := kl
          simp only [hk] at h
          obtain ⟨hw1, hm1⟩ := lex_kind_wf n l c l.pos kind l1 hwl hk
          obtain ⟨hw2, hm2⟩ := read_char_wf hw1
          cases h
          refine ⟨hw2, ?_, ?_, ?_, ?_⟩
          · exact Nat.le_trans hm1 hm2
          · exact hw2.2.2.2
          · intro hstr
            replace hstr : kind = .String := hstr
            subst hstr
            show strSlice l1.read_char.input (l.pos + 1) (l1.read_char.pos - 1) = _
            rw [hw2.1]
          · intro hstr
            replace hstr : kind ≠ .String := hstr
            show strSlice l1.read_char.input
                   (if kind = TokenKind.String then l.pos + 1 else l.pos)
                   (if kind = TokenKind.String then l1.read_char.pos - 1 else l1.read_char.pos) = _
            rw [if_neg hstr, if_neg hstr, hw2.1]
        | err e => simp only [hk] at h; exact nomatch h
        | crash => simp only [hk] at h; exact nomatch h
        | fuelOut => simp only [hk] at h; exact nomatch h
    | err e => simp only [hws] at h; exact nomatch h
    | crash => simp only [hws] at h; exact nomatch h
    | fuelOut => simp only [hws] at h; exact nomatch h

/-- Every token in a completed lexer run satisfies the slice contract. -/
theorem lexAll_contract {s : List Char} :
    ∀ (fuel : Nat) (l : Lexer) (ts : List Token),
      l.WF s → Lexer.lexAll fuel l = .ok ts →
      ∀ t ∈ ts, TokenSliceContract s t := by
  intro fuel
  induction fuel with
  | zero => intro l ts _ h; exact nomatch h
  | succ n ih =>
    intro l ts hw h
    rw [Lexer.lexAll] at h
    cases hn : Lexer.lexNext n l with
    | ok o =>
      cases o with
      | none =>
        simp only [hn] at h
        cases h
        intro t ht
        exact absurd ht (List.not_mem_nil t)
      | some p =>
        obtain ⟨t0, l'⟩ := p
        simp only [hn] at h
        obtain ⟨hw', hct⟩ := lexNext_contract n l t0 l' hw hn
        cases hr : Lexer.lexAll n l' with
        | ok ts' =>
          simp only [hr] at h
          cases h
          intro t ht
          rcases List.mem_cons.mp ht with rfl | ht'
          · exact hct
          · exact ih l' ts' hw' hr t ht'
        | err e => simp only [hr] at h; exact nomatch h
        | crash => simp only [hr] at h; exact nomatch h
        | fuelOut => simp only [hr] at h; exact nomatch h
    | err e => simp only [hn] at h; exact nomatch h
    | crash => simp only [hn] at h; exact nomatch h
    | fuelOut => simp only [hn] at h; exact nomatch h

end Monkey

namespace Monkey

/-- `overflow_program`'s first 2049 ops are all `Constant 0`. -/
theorem overflow_ops_get (k : Nat) (h : k < 2049) :
    overflow_program.ops.get? k = some (.Constant 0) := by
  show (List.replicate 2049 (Op.Constant 0) ++ [Op.Array 2049 ⟨0, 1⟩]).get? k = _
  rw [List.get?_eq_getElem?, List.getElem?_append,
      if_pos (by rw [List.length_replicate]; exact h),
      List.getElem?_replicate, if_pos h]

/-- While the stack is below capacity, each `Constant` op pushes one more
value and advances `ip`. -/
theorem overflow_step (fuel k : Nat) (h : k < 2048) :
    VM.run (fuel+1) (overflow_state k) = VM.run fuel (overflow_state (k+1)) := by
  have hfetch := overflow_ops_get k (by omega)
  have hconst : overflow_program.constants.get? 0 = some ⟨.Integer 1, ⟨0, 1⟩⟩ := rfl
  have hlen : k < STACK_SIZE := by simpa [STACK_SIZE] using h
  simp only [VM.run, overflow_state, Frame.ops, hfetch, hconst, VM.push, stack_push,
    List.length_replicate, hlen, if_true, VM.incIp, List.replicate_succ]

/-- At 2048 stacked values the next `Constant` push panics
(`Stack::push` writes out of bounds). -/
theorem overflow_crash_at_full (fuel : Nat) :
    VM.run (fuel+1) (overflow_state 2048) = .crash := by
  have hfetch := overflow_ops_get 2048 (by omega)
  have hconst : overflow_program.constants.get? 0 = some ⟨.Integer 1, ⟨0, 1⟩⟩ := rfl
  have hlen : ¬ ((List.replicate 2048 (⟨.Integer 1, ⟨0, 1⟩⟩ : SpannedObject)).length < STACK_SIZE) := by
    rw [List.length_replicate]
    simp [STACK_SIZE]
  simp only [VM.run, overflow_state, Frame.ops, hfetch, hconst, VM.push, stack_push,
    hlen, if_false]

/-- Running `overflow_program` from any of its intermediate states panics. -/
theorem overflow_run_crashes (n : Nat) :
    ∀ k, k ≤ 2048 → 2049 - k ≤ n → VM.run n (overflow_state k) = .crash := by
  induction n with
  | zero => intro k hk hn; omega
  | succ m ih =>
    intro k hk hn
    rcases Nat.lt_or_ge k 2048 with h | h
    · rw [overflow_step m k h]
      exact ih (k+1) (by omega) (by omega)
    · have hk0 : k = 2048 := by omega
      subst hk0
      exact overflow_crash_at_full m

end Monkey

namespace Monkey

set_option maxHeartbeats 2000000 in
/-- **C1.**  The spec's backend-equivalence invariant ("for any parsed
`Program` `p`, `eval(p) == run(compile(p))` whenever both succeed, for
every value type except functions") fails on the code: for the parse of
`let f = fn() { if (true) { 1 }; 2 }; f();` both back-ends succeed with
non-function integers, but the tree-walker yields `Integer 2` while the
VM yields `Integer 1` — `Compiler::compile_statements` appends a
`ReturnValue` op to every compiled block, so the `if` inside `f` returns
from `f` early.  The third conjunct records that the two results differ. -/
theorem backend_divergence_if_in_function :
    run_otf 100 prog_if_fn = .ok (.Integer 2) ∧
    run_vm 100 prog_if_fn = .ok (.Integer 1) ∧
    (Object.Integer 2 ≠ Object.Integer 1) :=
  ⟨rfl, rfl, by simp⟩

set_option maxHeartbeats 4000000 in
/-- **C2.**  On the parse of
`let fib = fn(n) { if (n < 2) { n } else { fib(n-1) + fib(n-2) } }; fib(10);`
the tree-walker returns `Integer 55` (the closure's `this` self-name makes
the recursion work), but the VM does NOT: `Op::Get` looks only in the
current frame's locals, so inside `fib`'s frame the name `fib` is
undefined and `VM::run` errors with `UndefinedVariable "fib"` at the first
recursive call site (span 42..45). -/
theorem fib_recursion_backends :
    run_otf 300 prog_fib = .ok (.Integer 55) ∧
    run_vm 300 prog_fib = .err [.Eval ⟨⟨42, 45⟩, .UndefinedVariable "fib"⟩] :=
  ⟨rfl, rfl⟩

set_option maxHeartbeats 1000000 in
/-- **C3 (counterexample).**  Source-level left-to-right evaluation of the
operands of `<` is NOT preserved by the VM: for `bar < foo;` (both
undefined) the compiled ops are `[Get foo, Get bar, GT]`, so the VM
evaluates the RIGHT operand first and reports `UndefinedVariable "foo"`,
whereas the tree-walker evaluates left-to-right and reports
`UndefinedVariable "bar"`. -/
theorem lt_right_operand_first :
    Compiler.compile 100 prog_lt_vars =
      some ⟨[.Get "foo" ⟨6, 9⟩, .Get "bar" ⟨0, 3⟩, .GT], []⟩ ∧
    run_vm 100 prog_lt_vars = .err [.Eval ⟨⟨6, 9⟩, .UndefinedVariable "foo"⟩] ∧
    run_otf 100 prog_lt_vars = .err [⟨⟨0, 3⟩, .UndefinedVariable "bar"⟩] :=
  ⟨rfl, rfl, rfl⟩

set_option maxHeartbeats 1000000 in
/-- **C3 (as amended).**  For every `a < b` the compiler emits the ops of
`b`, then the ops of `a`, then a single `GT` opcode (no `LT` opcode
exists: `Op.ofBinOp` maps `LT` to `GT`); the VM's binary-op dispatcher
detects the swap by spans (the second-popped value's span starting after
the first-popped value's span ends) and produces the boolean `a < b`; the
operands are evaluated right-then-left at the VM.  Concretely, `2 < 3;`
yields `true` and `3 < 2;` yields `false` on both back-ends. -/
theorem lt_compiled_as_swapped_gt :
    (∀ (fuel : Nat) (c : Compiler) (a b : Expression),
       compile_expression (fuel+1) c (.Binary a .LT b) =
         (do let c1 ← compile_expression fuel c b
             let c2 ← compile_expression fuel c1 a
             some (c2.pushOp .GT))) ∧
    Op.ofBinOp .LT = .GT ∧
    (∀ (fuel : Nat) (a b : Int) (sa sb : Span) (rest : List SpannedObject)
       (frames : List Frame) (consts : List SpannedObject),
       sa.stop < sb.start →
       rest.length < STACK_SIZE →
       execute_binary_op (fuel+1)
         ⟨⟨.Integer a, sa⟩ :: ⟨.Integer b, sb⟩ :: rest, frames, consts⟩ .GT =
         .ok ⟨⟨.Boolean (decide (a < b)), sb.join sa⟩ :: rest, frames, consts⟩) ∧
    run_vm 100 prog_two_lt_three = .ok (.Boolean true) ∧
    run_vm 100 prog_three_lt_two = .ok (.Boolean false) ∧
    run_otf 100 prog_two_lt_three = .ok (.Boolean true) ∧
    run_otf 100 prog_three_lt_two = .ok (.Boolean false) := by
  refine ⟨?_, rfl, ?_, rfl, rfl, rfl, rfl⟩
  · intro fuel c a b
    show (do let c1 ← compile_expression fuel c b
             let c2 ← compile_expression fuel c1 a
             some (c2.pushOp (Op.ofBinOp .LT))) =
         (do let c1 ← compile_expression fuel c b
             let c2 ← compile_expression fuel c1 a
             some (c2.pushOp .GT))
    rfl
  · intro fuel a b sa sb rest frames consts h hlen
    simp only [STACK_SIZE] at hlen
    simp [execute_binary_op, h, stack_push, hlen, STACK_SIZE]

/-- Witness for the hypotheses of `lt_compiled_as_swapped_gt`: the
span-swapped `GT` on `2` (span 0..1) and `3` (span 4..5) pushes
`Boolean (2 < 3)`. -/
theorem lt_compiled_as_swapped_gt_witness :
    execute_binary_op 1
      ⟨⟨.Integer 2, ⟨0, 1⟩⟩ :: ⟨.Integer 3, ⟨4, 5⟩⟩ :: [], [], []⟩ .GT =
      .ok ⟨⟨.Boolean (decide ((2 : Int) < 3)), Span.join ⟨4, 5⟩ ⟨0, 1⟩⟩ :: [], [], []⟩ :=
  lt_compiled_as_swapped_gt.2.2.1 0 2 3 ⟨0, 1⟩ ⟨4, 5⟩ [] [] [] (by decide) (by decide)

set_option maxHeartbeats 1000000 in
/-- **C4.**  Division by zero: the VM's `Div` arm checks the divisor and
errors with `DivisionByZero` (for `1 / 0;` at the joined span 0..5), but
the tree-walker's `Div` arm (`src/eval/mod.rs` lines 165-167) performs the
Rust `i64` division UNCHECKED, so `1 / 0;` PANICS the host (`crash`)
instead of returning an error — and the evaluator's `ErrorKind` in this
snapshot has no `DivisionByZero` variant of its own.  The last two
conjuncts state both behaviours for arbitrary numerators. -/
theorem division_by_zero_backends :
    run_otf 100 prog_div_zero = .crash ∧
    run_vm 100 prog_div_zero = .err [.Eval ⟨⟨0, 5⟩, .DivisionByZero⟩] ∧
    (∀ (fuel : Nat) (span : Span) (a : Int),
       eval_infix_dispatch (fuel+1) span .Div (.Integer a) (.Integer 0) = .crash) ∧
    (∀ (fuel : Nat) (a : Int) (sa s0 : Span) (rest : List SpannedObject)
       (frames : List Frame) (consts : List SpannedObject),
       ¬ (s0.stop < sa.start) →
       execute_binary_op (fuel+1)
         ⟨⟨.Integer 0, s0⟩ :: ⟨.Integer a, sa⟩ :: rest, frames, consts⟩ .Div =
         .err [.Eval ⟨sa.join s0, .DivisionByZero⟩]) := by
  refine ⟨rfl, rfl, fun fuel span a => rfl, ?_⟩
  intro fuel a sa s0 rest frames consts h
  simp [execute_binary_op, h]

/-- Witness for the hypotheses of `division_by_zero_backends`: dividing
`1` (span 0..1) by `0` (span 4..5) at the VM errors with
`DivisionByZero`. -/
theorem division_by_zero_backends_witness :
    execute_binary_op 1 ⟨⟨.Integer 0, ⟨4, 5⟩⟩ :: ⟨.Integer 1, ⟨0, 1⟩⟩ :: [], [], []⟩ .Div =
      .err [.Eval ⟨Span.join ⟨0, 1⟩ ⟨4, 5⟩, .DivisionByZero⟩] :=
  division_by_zero_backends.2.2.2 0 1 ⟨0, 1⟩ ⟨4, 5⟩ [] [] [] (by decide)

end Monkey

namespace Monkey

/-- **C5.**  Truthiness: `truthy v` is `false` exactly when `v` is `Null`
or `Boolean false` — `Integer 0`, the empty string and the empty array are
all truthy — and this single rule governs `!` and `if` in the tree-walker
(their evaluation equations factor through `Object.truthy`), the VM's
`Op::Not` (a one-op run pushes `Boolean (!truthy v)` for EVERY value `v`),
and the VM's `Op::JumpIfNot` (the compiled-`if` op pattern below selects
the `True`/`False` branch exactly by `truthy v`). -/
theorem truthiness_rule :
    (∀ v : Object, v.truthy = false ↔ (v = .Null ∨ v = .Boolean false)) ∧
    (∀ (fuel : Nat) (env : Environment) (operand : Expression) (t : Token),
       eval_expression (fuel+1) env (.Unary .Not operand t) none =
         (eval_expression fuel env operand none) >>= fun v => .ok (.Boolean (!v.truthy))) ∧
    (∀ (fuel : Nat) (env : Environment) (condition : Expression)
       (consequence : BlockStatement) (alternative : Option BlockStatement)
       (t : Token) (i : Option Identifier),
       eval_expression (fuel+1) env (.If condition consequence alternative t) i =
         (eval_expression fuel env condition none) >>= fun c =>
           if c.truthy then eval_block_statement fuel env consequence
           else match alternative with
                | some alt => eval_block_statement fuel env alt
                | none => .ok .Null) ∧
    (∀ (fuel : Nat) (v : Object) (sv s1 : Span) (consts : List SpannedObject),
       VM.run (fuel+2) ⟨[⟨v, sv⟩], [Frame.new ⟨[.Not s1], []⟩ Span.default], consts⟩ =
         .ok (.Boolean (!v.truthy))) ∧
    (∀ (fuel : Nat) (v : Object) (sv sa sb : Span) (consts : List SpannedObject),
       VM.run (fuel+5)
         ⟨[⟨v, sv⟩],
          [Frame.new ⟨[.JumpIfNot 3, .True sa, .Jump 4, .False sb], []⟩ Span.default],
          consts⟩ =
         .ok (.Boolean v.truthy)) := by
  refine ⟨?_, ?_, ?_, ?_, ?_⟩
  · intro v
    cases v <;> simp [Object.truthy]
    rename_i b; cases b <;> simp
  · intro fuel env operand t; rfl
  · intro fuel env condition consequence alternative t i; rfl
  · intro fuel v sv s1 consts; rfl
  · intro fuel v sv sa sb consts
    cases v <;> try rfl
    rename_i b; cases b <;> rfl

/-- **C6 (counterexample).**  On the unterminated-string source `"ab` the
lexer produces one string token whose span `{0, 3}` covers the whole
source, but whose literal is `"a"`, NOT the span's slice minus the
surrounding quotes (`"ab"`): the final character is dropped as if it were
a closing quote. -/
theorem string_literal_unterminated :
    lex 20 ['"', 'a', 'b'] = .ok [⟨.String, "a", ⟨0, 3⟩⟩] ∧
    strSlice ['"', 'a', 'b'] 1 3 = "ab" ∧
    ("a" : String) ≠ "ab" := ⟨rfl, rfl, by decide⟩

/-- **C6 (as amended).**  For every token `t` the lexer produces on source
`s`: `t.span` lies inside `s` and `t.literal` is the exact source slice
`s[t.span.start..t.span.stop]` — except for string tokens, whose span
includes the surrounding quotes while the literal is the slice minus its
first and last characters (exactly the quotes whenever the string is
terminated); see `TokenSliceContract`. -/
theorem lexer_token_slice_contract (fuel : Nat) (s : List Char) (ts : List Token)
    (t : Token) (h : lex fuel s = .ok ts) (ht : t ∈ ts) : TokenSliceContract s t :=
  lexAll_contract fuel (Lexer.new s) ts (lexer_new_wf s) h t ht

/-- Witness for `lexer_token_slice_contract`: the identifier token lexed
from `ab` satisfies the slice contract. -/
theorem lexer_token_slice_contract_witness :
    TokenSliceContract ['a', 'b'] ⟨.Ident, "ab", ⟨0, 2⟩⟩ :=
  lexer_token_slice_contract 20 ['a', 'b'] [⟨.Ident, "ab", ⟨0, 2⟩⟩] ⟨.Ident, "ab", ⟨0, 2⟩⟩
    rfl (List.mem_singleton.mpr rfl)

set_option maxHeartbeats 1000000 in
/-- **C7.**  Out-of-bounds array indexing is an error in both back-ends:
when the collection evaluates to an array of length `n` and the index to
an integer `i` with `i < 0` or `n ≤ i`, the tree-walker returns
`OutOfBounds` (not `Null`), and the VM's `Op::Index` behaves the same. -/
theorem array_index_oob :
    (∀ (fuel : Nat) (env : Environment) (collection index : Expression)
       (closeT : Token) (arr : List Object) (i : Int),
       eval_expression fuel env collection none = .ok (.Array arr) →
       eval_expression fuel env index none = .ok (.Integer i) →
       (i < 0 ∨ (arr.length : Int) ≤ i) →
       eval_expression (fuel+1) env (.Index collection index closeT) none =
         .err [⟨index.span, .OutOfBounds i arr.length⟩]) ∧
    (∀ (fuel : Nat) (arr : List Object) (i : Int) (sa si so cs : Span)
       (ps : List String) (locals : List (String × SpannedObject))
       (rest consts : List SpannedObject),
       (i < 0 ∨ (arr.length : Int) ≤ i) →
       VM.run (fuel+1)
         ⟨⟨.Integer i, si⟩ :: ⟨.Array arr, sa⟩ :: rest,
          [⟨⟨[.Index so], ps⟩, 0, cs, locals⟩], consts⟩ =
         .err [.Eval ⟨si, .OutOfBounds i arr.length⟩]) := by
  constructor
  · intro fuel env collection index closeT arr i h1 h2 h3
    simp [eval_expression, h1, h2, h3]
  · intro fuel arr i sa si so cs ps locals rest consts h
    simp [VM.run, VM.pop, stack_pop, Frame.ops, h]

/-- Witness for `array_index_oob`: indexing `[1,2,3]` with `3` errors with
`OutOfBounds` in the tree-walker, and indexing the one-element array
`[7]` with `3` errors in the VM. -/
theorem array_index_oob_witness :
    eval_expression 6 Environment.default
      (.Index
        (.Array [intLit 1 "1" 1 2, intLit 2 "2" 3 4, intLit 3 "3" 5 6]
          (tk .LBracket "[" 0 1) (tk .RBracket "]" 6 7))
        (intLit 3 "3" 8 9) (tk .RBracket "]" 9 10)) none =
      .err [⟨⟨8, 9⟩, .OutOfBounds 3 3⟩] ∧
    VM.run 1 ⟨⟨.Integer 3, ⟨1, 2⟩⟩ :: ⟨.Array [.Integer 7], ⟨0, 1⟩⟩ :: [],
              [⟨⟨[.Index ⟨0, 2⟩], []⟩, 0, ⟨0, 0⟩, []⟩], []⟩ =
      .err [.Eval ⟨⟨1, 2⟩, .OutOfBounds 3 1⟩] :=
  ⟨array_index_oob.1 5 Environment.default _ _ _ [.Integer 1, .Integer 2, .Integer 3] 3
     rfl rfl (by decide),
   array_index_oob.2 0 [.Integer 7] 3 ⟨0, 1⟩ ⟨1, 2⟩ ⟨0, 2⟩ ⟨0, 0⟩ [] [] [] [] (by decide)⟩

set_option maxHeartbeats 1000000 in
/-- **C8, counterexample.**  The claim says only integer, boolean and
string map keys are accepted, yet `{[1, 2]: 2}[[1, 2]]` evaluates to
`Integer 2` in both back-ends: array keys are accepted. -/
theorem map_array_key_accepted :
    run_otf 100 prog_map_array_key = .ok (.Integer 2) ∧
    run_vm 100 prog_map_array_key = .ok (.Integer 2) := ⟨rfl, rfl⟩

set_option maxHeartbeats 1000000 in
/-- **C8, amended.**  The actual key restriction: the tree-walker rejects
`Function` and `Map` keys — at map-literal construction and at map
indexing — with `InvalidKey`; the VM's `Op::Index` rejects
`CompiledFunction` and `Map` keys the same way; and an array key is
accepted at construction (hashed and stored). -/
theorem map_key_restrictions :
    (∀ (fuel : Nat) (env : Environment) (key value : Expression)
       (rest : List (Expression × Expression)) (o c : Token) (kv : Object),
       eval_expression fuel env key none = .ok kv →
       (kv.kind = .Function ∨ kv.kind = .Map) →
       eval_expression (fuel+2) env (.Map ((key, value) :: rest) o c) none =
         .err [⟨key.span, .InvalidKey kv.kind⟩]) ∧
    (∀ (fuel : Nat) (env : Environment) (collection index : Expression)
       (closeT : Token) (m : List (Object × Object)) (kv : Object),
       eval_expression fuel env collection none = .ok (.Map m) →
       eval_expression fuel env index none = .ok kv →
       (kv.kind = .Function ∨ kv.kind = .Map) →
       eval_expression (fuel+1) env (.Index collection index closeT) none =
         .err [⟨(Expression.Index collection index closeT).span, .InvalidKey kv.kind⟩]) ∧
    (∀ (fuel : Nat) (m : List (Object × Object)) (kv : Object)
       (sk sm so cs : Span) (ps : List String)
       (locals : List (String × SpannedObject)) (rest consts : List SpannedObject),
       (kv.kind = .CompiledFunction ∨ kv.kind = .Map) →
       VM.run (fuel+1)
         ⟨⟨kv, sk⟩ :: ⟨.Map m, sm⟩ :: rest, [⟨⟨[.Index so], ps⟩, 0, cs, locals⟩], consts⟩ =
         .err [.Eval ⟨sk, .InvalidKey kv.kind⟩]) ∧
    (∀ (fuel : Nat) (env : Environment) (key value : Expression) (o c : Token)
       (xs : List Object) (vv : Object),
       eval_expression (fuel+2) env key none = .ok (.Array xs) →
       eval_expression (fuel+2) env value none = .ok vv →
       hashObject (fuel+1) (.Array xs) = .ok () →
       eval_expression (fuel+4) env (.Map [(key, value)] o c) none =
         .ok (.Map [(.Array xs, vv)])) := by
  refine ⟨?_, ?_, ?_, ?_⟩
  · intro fuel env key value rest o c kv h1 h2
    simp [eval_expression, eval_map_entries, h1, h2]
  · intro fuel env collection index closeT m kv h1 h2 h3
    simp [eval_expression, h1, h2, h3]
  · intro fuel m kv sk sm so cs ps locals rest consts h
    simp [VM.run, VM.pop, stack_pop, Frame.ops, h]
  · intro fuel env key value o c xs vv h1 h2 h3
    show eval_map_entries (fuel+3) env [(key, value)] [] = _
    simp [eval_map_entries, h1, h2, mapInsert, h3, mapInsertLoop, Object.kind]

/-- Witness for `map_key_restrictions`: the tree-walker rejects the map
literal `{{}: 1}` (an empty-map key) with `InvalidKey Map`. -/
theorem map_key_restrictions_witness :
    eval_expression 4 Environment.default
      (.Map [(.Map [] (tk .LBrace "\x7b" 1 2) (tk .RBrace "\x7d" 2 3), intLit 1 "1" 5 6)]
        (tk .LBrace "\x7b" 0 1) (tk .RBrace "\x7d" 7 8)) none =
      .err [⟨Span.join ⟨1, 2⟩ ⟨2, 3⟩, .InvalidKey .Map⟩] :=
  map_key_restrictions.1 2 Environment.default
    (.Map [] (tk .LBrace "\x7b" 1 2) (tk .RBrace "\x7d" 2 3)) (intLit 1 "1" 5 6) []
    (tk .LBrace "\x7b" 0 1) (tk .RBrace "\x7d" 7 8) (.Map []) rfl (Or.inr rfl)

/-- **C9.**  The VM stack capacity is 2048.  Pushing below capacity
succeeds; popping an empty stack yields a `Stack underflow` error (as the
claim says); but pushing at capacity is an unchecked out-of-bounds write
that panics the host (`Stack::push` has no bounds check), so a program
pushing 2049 values crashes the process instead of returning an error
from `VM::run`. -/
theorem stack_capacity_and_overflow :
    STACK_SIZE = 2048 ∧
    (∀ (stack : List SpannedObject) (v : SpannedObject),
       stack.length = STACK_SIZE → stack_push stack v = .crash) ∧
    (∀ (stack : List SpannedObject) (v : SpannedObject),
       stack.length < STACK_SIZE → stack_push stack v = .ok (v :: stack)) ∧
    (∀ vm : VM, vm.stack = [] → vm.pop = .err [.Underflow]) ∧
    (∀ (fuel : Nat) (ps : List String) (cs : Span) (consts : List SpannedObject),
       VM.run (fuel+2) ⟨[], [⟨⟨[.Add], ps⟩, 0, cs, []⟩], consts⟩ = .err [.Underflow]) ∧
    VM.run 3000 (VM.new overflow_program) = .crash := by
  refine ⟨rfl, ?_, ?_, ?_, ?_, ?_⟩
  · intro stack v h
    simp [stack_push, h]
  · intro stack v h
    simp [stack_push, h]
  · intro vm h
    simp [VM.pop, stack_pop, h]
  · intro fuel ps cs consts
    simp [VM.run, Frame.ops, execute_binary_op]
  · have h0 : VM.new overflow_program = overflow_state 0 := rfl
    rw [h0]
    exact overflow_run_crashes 3000 0 (by omega) (by omega)

/-- Witness for `stack_capacity_and_overflow`: a push onto a full
(2048-element) stack crashes. -/
theorem stack_capacity_witness :
    stack_push (List.replicate 2048 ⟨.Null, ⟨0, 0⟩⟩) ⟨.Null, ⟨0, 0⟩⟩ = .crash :=
  stack_capacity_and_overflow.2.1 (List.replicate 2048 ⟨.Null, ⟨0, 0⟩⟩) ⟨.Null, ⟨0, 0⟩⟩
    (by rw [List.length_replicate]; rfl)

/-- **C10.**  The `push` intrinsic is functional: it returns a new array
with the value appended and is wired into the intrinsic table under the
name `push`; `push([1, 2], 3)` evaluates to `[1, 2, 3]`. -/
theorem push_intrinsic_functional :
    (∀ (arr : List Object) (value : Object) (args_span : Span),
       intrinsicPush [.Array arr, value] args_span = .ok (.Array (arr ++ [value]))) ∧
    lookup_intrinsic "push" = some intrinsicPush ∧
    run_otf 100 prog_push = .ok (.Array [.Integer 1, .Integer 2, .Integer 3]) :=
  ⟨fun _ _ _ => rfl, rfl, rfl⟩

end Monkey
